import Mathlib

/-!
# Verification of the Masumi paywall payment/job lifecycle engine

A shallow embedding, in Lean 4, of the core logic of the
`n8n-nodes-masumi-payment` repository:

* the canonical hasher (`shared/utils.ts`: `canonicalize`, `generateInputHash`),
  including an executable SHA-256 over UTF-8 byte streams;
* the payment-status interpreter and confirmation poller
  (`nodes/MasumiPaywall/check-payment-status.ts`);
* the purchase-request builder (`nodes/MasumiPaywall/create-purchase.ts`);
* the job store and lifecycle operations
  (`nodes/MasumiPaywall/job-handler.ts`, the async `updateJobStatus` variant,
  `nodes/MasumiPaywallRespond/handlers/start-job.ts`).

Pure functions in the source become Lean functions; stateful code threads an
explicit job-map state; fallible code returns `Except`; JavaScript machine
integers are modelled as `Nat` with explicit reductions modulo `2 ^ 32` where
overflow matters.
-/

namespace Masumi

/-! ## Bytes and hex encoding -/

/-- The sixteen lowercase hex digits, in order. -/
def hexAlphabet : List Char := "0123456789abcdef".data

/-- Hex digit for a nibble (reduced mod 16). -/
def hexDigitChar (n : Nat) : Char := hexAlphabet.getD (n % 16) '0'

/-- Lowercase hex encoding of a byte list, two digits per byte
(the semantics of Node's `Buffer.toString('hex')` and of the final step of
`crypto.createHash(...).digest('hex')`). -/
def bytesToHex : List Nat → List Char
  | [] => []
  | b :: bs => hexDigitChar (b / 16) :: hexDigitChar (b % 16) :: bytesToHex bs

theorem bytesToHex_length (bs : List Nat) : (bytesToHex bs).length = 2 * bs.length := by
  induction bs with
  | nil => rfl
  | cons b bs ih => simp [bytesToHex, ih]; omega

theorem hexDigitChar_mem (n : Nat) : hexDigitChar n ∈ hexAlphabet := by
  have h : n % 16 < 16 := Nat.mod_lt _ (by omega)
  have hlt : n % 16 < hexAlphabet.length := by
    rw [show hexAlphabet.length = 16 from rfl]
    exact h
  rw [hexDigitChar, List.getD_eq_getElem _ _ hlt]
  exact List.getElem_mem hlt

theorem bytesToHex_mem {c : Char} {bs : List Nat} (h : c ∈ bytesToHex bs) :
    c ∈ hexAlphabet := by
  induction bs with
  | nil => simp [bytesToHex] at h
  | cons b bs ih =>
    simp only [bytesToHex, List.mem_cons] at h
    rcases h with h | h | h
    · exact h ▸ hexDigitChar_mem _
    · exact h ▸ hexDigitChar_mem _
    · exact ih h

/-- UTF-8 encoding of a single character (code point), as byte values.
Mirrors the standard encoding used by `Buffer.from(s, 'utf8')` and by
`crypto`'s `update(input, 'utf-8')`. -/
def utf8EncodeChar (c : Char) : List Nat :=
  let n := c.toNat
  if n < 0x80 then [n]
  else if n < 0x800 then [0xC0 + n / 64, 0x80 + n % 64]
  else if n < 0x10000 then [0xE0 + n / 4096, 0x80 + n / 64 % 64, 0x80 + n % 64]
  else [0xF0 + n / 262144, 0x80 + n / 4096 % 64, 0x80 + n / 64 % 64, 0x80 + n % 64]

/-- UTF-8 encoding of a string, as byte values. -/
def utf8Encode (s : String) : List Nat := s.data.flatMap utf8EncodeChar

/-! ## SHA-256 (executable, over `Nat` with mod-`2^32` arithmetic) -/

/-- `2 ^ 32`. -/
def M32 : Nat := 4294967296

/-- 32-bit right-rotate. The operand is assumed reduced mod `2 ^ 32`. -/
def rotr (n x : Nat) : Nat := ((x >>> n) ||| (x <<< (32 - n))) % M32

/-- SHA-256 round constants (decimal form of the FIPS 180-4 table). -/
def sha256K : List Nat :=
  [1116352408, 1899447441, 3049323471, 3921009573, 961987163,
   1508970993, 2453635748, 2870763221, 3624381080, 310598401,
   607225278, 1426881987, 1925078388, 2162078206, 2614888103,
   3248222580, 3835390401, 4022224774, 264347078, 604807628,
   770255983, 1249150122, 1555081692, 1996064986, 2554220882,
   2821834349, 2952996808, 3210313671, 3336571891, 3584528711,
   113926993, 338241895, 666307205, 773529912, 1294757372,
   1396182291, 1695183700, 1986661051, 2177026350, 2456956037,
   2730485921, 2820302411, 3259730800, 3345764771, 3516065817,
   3600352804, 4094571909, 275423344, 430227734, 506948616,
   659060556, 883997877, 958139571, 1322822218, 1537002063,
   1747873779, 1955562222, 2024104815, 2227730452, 2361852424,
   2428436474, 2756734187, 3204031479, 3329325298]

/-- Running hash state: eight 32-bit words. -/
structure Hash8 where
  a : Nat
  b : Nat
  c : Nat
  d : Nat
  e : Nat
  f : Nat
  g : Nat
  hh : Nat
deriving Repr, DecidableEq

/-- SHA-256 initial hash value (decimal form). -/
def sha256H0 : Hash8 :=
  ⟨1779033703, 3144134277, 1013904242, 2773480762,
   1359893119, 2600822924, 528734635, 1541459225⟩

/-- Message-padding step: append `0x80`, zero bytes to 56 mod 64, then the
bit length as an 8-byte big-endian integer. -/
def sha256Pad (msg : List Nat) : List Nat :=
  let len := msg.length
  let zeros := (64 - (len + 9) % 64) % 64
  let bitLen := 8 * len
  msg ++ [0x80] ++ List.replicate zeros 0 ++
    [bitLen / 72057594037927936 % 256, bitLen / 281474976710656 % 256,
     bitLen / 1099511627776 % 256, bitLen / 4294967296 % 256,
     bitLen / 16777216 % 256, bitLen / 65536 % 256, bitLen / 256 % 256, bitLen % 256]

/-- Big-endian packing of bytes into 32-bit words. -/
def bytesToWords : List Nat → List Nat
  | b0 :: b1 :: b2 :: b3 :: rest =>
    (b0 * 16777216 + b1 * 65536 + b2 * 256 + b3) :: bytesToWords rest
  | _ => []

/-- Split a list into chunks of 16 elements (one 512-bit block of words). -/
def toBlocks : List Nat → List (List Nat)
  | [] => []
  | w :: ws => ((w :: ws).take 16) :: toBlocks ((w :: ws).drop 16)
termination_by l => l.length
decreasing_by simp [List.drop]; omega

/-- Message-schedule extension from 16 to 64 words. -/
def sha256Extend (w : List Nat) : Nat → List Nat
  | 0 => w
  | n + 1 =>
    let w' := sha256Extend w n
    let i := w'.length
    let s0v := rotr 7 (w'.getD (i - 15) 0) ^^^ rotr 18 (w'.getD (i - 15) 0) ^^^
      (w'.getD (i - 15) 0) >>> 3
    let s1v := rotr 17 (w'.getD (i - 2) 0) ^^^ rotr 19 (w'.getD (i - 2) 0) ^^^
      (w'.getD (i - 2) 0) >>> 10
    w' ++ [(w'.getD (i - 16) 0 + s0v + w'.getD (i - 7) 0 + s1v) % M32]

/-- One round of the SHA-256 compression function. -/
def sha256Round (st : Hash8) (kw : Nat × Nat) : Hash8 :=
  let s1 := rotr 6 st.e ^^^ rotr 11 st.e ^^^ rotr 25 st.e
  let ch := (st.e &&& st.f) ^^^ ((M32 - 1 - st.e) &&& st.g)
  let t1 := (st.hh + s1 + ch + kw.1 + kw.2) % M32
  let s0 := rotr 2 st.a ^^^ rotr 13 st.a ^^^ rotr 22 st.a
  let maj := (st.a &&& st.b) ^^^ (st.a &&& st.c) ^^^ (st.b &&& st.c)
  let t2 := (s0 + maj) % M32
  ⟨(t1 + t2) % M32, st.a, st.b, st.c, (st.d + t1) % M32, st.e, st.f, st.g⟩

/-- Compress one 16-word block into the running state. -/
def sha256Block (st : Hash8) (block : List Nat) : Hash8 :=
  let w := sha256Extend block 48
  let r := (sha256K.zip w).foldl sha256Round st
  ⟨(st.a + r.a) % M32, (st.b + r.b) % M32, (st.c + r.c) % M32, (st.d + r.d) % M32,
   (st.e + r.e) % M32, (st.f + r.f) % M32, (st.g + r.g) % M32, (st.hh + r.hh) % M32⟩

/-- Big-endian expansion of a 32-bit word into 4 bytes. -/
def wordToBytes (w : Nat) : List Nat :=
  [w / 16777216 % 256, w / 65536 % 256, w / 256 % 256, w % 256]

/-- SHA-256 digest (32 bytes) of a byte-list message. -/
def sha256Bytes (msg : List Nat) : List Nat :=
  let st := (toBlocks (bytesToWords (sha256Pad msg))).foldl sha256Block sha256H0
  wordToBytes st.a ++ wordToBytes st.b ++ wordToBytes st.c ++ wordToBytes st.d ++
    wordToBytes st.e ++ wordToBytes st.f ++ wordToBytes st.g ++ wordToBytes st.hh

/-- `createHash` of `shared/utils.ts`: lowercase-hex SHA-256 of the UTF-8
bytes of the input string. -/
def createHash (input : String) : String :=
  ⟨bytesToHex (sha256Bytes (utf8Encode input))⟩

theorem sha256Bytes_length (msg : List Nat) : (sha256Bytes msg).length = 32 := by
  simp [sha256Bytes, wordToBytes]

theorem createHash_length (s : String) : (createHash s).length = 64 := by
  simp [createHash, String.length, bytesToHex_length, sha256Bytes_length]

theorem createHash_mem_hex (s : String) : ∀ c ∈ (createHash s).data, c ∈ hexAlphabet := by
  intro c hc
  exact bytesToHex_mem hc

/-! ## JSON-like values

`shared/utils.ts` canonicalizes arbitrary JavaScript values.  We model them
with a tagged value type: `null`, booleans, numbers (as integers — the
repository only ever hashes integral timestamps and plain data), strings,
`undefined`, symbols, arrays and objects (association lists of fields in
insertion order, mirroring a JS object's key order). -/

inductive Value where
  | vnull
  | vbool (b : Bool)
  | vnum (n : Int)
  | vstr (s : String)
  | vundef
  | vsym
  | varr (elems : List Value)
  | vobj (fields : List (String × Value))
deriving Repr, Inhabited

/-- The values `canonicalize` treats as absent: `undefined` and symbols. -/
def isSkip : Value → Bool
  | .vundef => true
  | .vsym => true
  | _ => false

/-- JSON string escaping of one character, exactly as `JSON.stringify` does
for a string body. -/
def jsonEscapeChar (c : Char) : String :=
  if c = '"' then "\\\""
  else if c = '\\' then "\\\\"
  else if c = '\x08' then "\\b"
  else if c = '\x09' then "\\t"
  else if c = '\x0a' then "\\n"
  else if c = '\x0c' then "\\f"
  else if c = '\x0d' then "\\r"
  else if c.toNat < 32 then
    "\\u00" ++ String.mk [hexDigitChar (c.toNat / 16), hexDigitChar c.toNat]
  else String.singleton c

/-- `JSON.stringify` of a string: quoted, body escaped. -/
def jsonQuote (s : String) : String :=
  "\"" ++ String.join (s.data.map jsonEscapeChar) ++ "\""

/-- First-match association-list lookup (the semantics of `obj[key]` once an
object is modelled as its ordered field list). -/
def alookup {α : Type} (k : String) : List (String × α) → Option α
  | [] => none
  | (k', v) :: l => if k = k' then some v else alookup k l

/-- JavaScript's default `Array.prototype.sort` on strings: ordering by the
standard string order.  Modelled by insertion sort. -/
def sortStrs (l : List String) : List String := l.insertionSort (· ≤ ·)

/-- JavaScript truthiness of a data value: `undefined`, `null`, `false`,
`0` and the empty string are falsy; symbols, arrays and objects are
truthy. -/
def isTruthy : Value → Bool
  | .vundef => false
  | .vnull => false
  | .vbool b => b
  | .vnum n => n != 0
  | .vstr s => s != ""
  | .vsym => true
  | .varr _ => true
  | .vobj _ => true

/-- The `obj.toJSON` truthiness test at the top of `canonicalize`: a
property access yielding `undefined` when the field is absent. -/
def hasTruthyToJSON (l : List (String × Value)) : Bool :=
  match alookup "toJSON" l with
  | some v => isTruthy v
  | none => false

mutual

/-- `JSON.stringify` on data values: objects are serialized in insertion
order with `undefined`/symbol-valued fields skipped; array elements that
are `undefined` or symbols become `null`.  (`JSON.stringify` would invoke a
`toJSON` *method*, but parsed JSON data never holds functions, so a data
value named `toJSON` is serialized like any other field.) -/
def jsonStr : Value → String
  | .vnull => "null"
  | .vbool b => if b then "true" else "false"
  | .vnum n => toString n
  | .vstr s => jsonQuote s
  | .vundef => "undefined"
  | .vsym => "undefined"
  | .varr xs => "[" ++ jsonArr xs ++ "]"
  | .vobj l => "\x7b" ++ jsonObj l ++ "\x7d"

/-- Array body: comma-joined elements. -/
def jsonArr : List Value → String
  | [] => ""
  | [v] => if isSkip v then "null" else jsonStr v
  | v :: vs => (if isSkip v then "null" else jsonStr v) ++ "," ++ jsonArr vs

/-- Object body in insertion order, skipping absent-valued fields. -/
def jsonObj : List (String × Value) → String
  | [] => ""
  | (k, v) :: l =>
    if isSkip v then jsonObj l
    else
      let rest := jsonObj l
      jsonQuote k ++ ":" ++ jsonStr v ++ (if rest = "" then "" else "," ++ rest)

end

/-- The `keys.reduce` accumulator loop of `canonicalize`'s object branch,
operating over pre-rendered field strings: a skipped field renders `""` and
is dropped; any other field is appended as `"key":value`, comma-separated.
(The source renders `obj[cv]` on the fly; here field values are pre-rendered
into `m`, see `canonFields` — the lookup-then-render order is the only
difference.) -/
def renderKeys (m : List (String × String)) : List String → String → String
  | [], t => t
  | k :: ks, t =>
    let value := (alookup k m).getD ""
    if value = "" then renderKeys m ks t
    else renderKeys m ks (t ++ (if t = "" then "" else ",") ++ jsonQuote k ++ ":" ++ value)

mutual

/-- `canonicalize` of `shared/utils.ts`: scalars via `JSON.stringify`;
an object whose `toJSON` field is truthy hits the
`obj === null || typeof obj !== 'object' || obj.toJSON` early return and is
serialized by `JSON.stringify` in insertion order; otherwise arrays are
canonicalized element-wise with `undefined`/symbols as `null`, and objects
with sorted keys and `undefined`/symbol fields omitted.  (`vundef`/`vsym`
never reach `canonV` directly from the embedded entry points.) -/
def canonV : Value → String
  | .vnull => "null"
  | .vbool b => if b then "true" else "false"
  | .vnum n => toString n
  | .vstr s => jsonQuote s
  | .vundef => "undefined"
  | .vsym => "undefined"
  | .varr xs => "[" ++ canonArr xs ++ "]"
  | .vobj l =>
    if hasTruthyToJSON l then jsonStr (.vobj l)
    else "\x7b" ++ renderKeys (canonFields l) (sortStrs (l.map Prod.fst)) "" ++ "\x7d"

/-- The array branch's `reduce`: comma-joined elements, skipped values as
`null`. -/
def canonArr : List Value → String
  | [] => ""
  | [v] => if isSkip v then "null" else canonV v
  | v :: vs => (if isSkip v then "null" else canonV v) ++ "," ++ canonArr vs

/-- Pre-rendering of each object field: a skipped value renders `""`
(matching `value = obj[cv] === undefined || typeof obj[cv] === 'symbol' ? ''
: canonicalize(obj[cv])`). -/
def canonFields : List (String × Value) → List (String × String)
  | [] => []
  | (k, v) :: l => (k, if isSkip v then "" else canonV v) :: canonFields l

end

/-- `generateInputHash` of `shared/utils.ts` for an already-object input:
`sha256(identifierFromPurchaser + ";" + canonicalize(input))`, lowercase
hex. -/
def generateInputHash (identifierFromPurchaser : String) (inputData : Value) : String :=
  createHash (identifierFromPurchaser ++ ";" ++ canonV inputData)

/-- The full `generateInputHash` entry point, including the
`typeof inputData === 'object' && inputData !== null ? inputData :
Object.fromEntries(inputData)` conversion.  Objects and arrays pass
through (`typeof` is `'object'` for both).  Every other value makes
`Object.fromEntries` throw a `TypeError`: numbers, booleans, `null`,
`undefined` and symbols are not iterable, and a string, though iterable,
iterates into primitive one-character strings, which
`AddEntriesFromIterable` rejects because each iterator value must be an
entry *object*. -/
def generateInputHashTop (identifierFromPurchaser : String) (inputData : Value) :
    Except String String :=
  match inputData with
  | .vobj _ => .ok (generateInputHash identifierFromPurchaser inputData)
  | .varr _ => .ok (generateInputHash identifierFromPurchaser inputData)
  | .vstr _ => .error "TypeError: Iterator value is not an entry object"
  | _ => .error "TypeError: inputData is not iterable"

/-! ## Canonicalization is insensitive to key order and `undefined` fields

To state claim C4 we need "logically equal" inputs: equal after recursively
sorting object keys and dropping `undefined`/symbol fields.  `vnorm` is that
normal form (this definition follows the specification's description of
canonicalization, as the comparison point for the code's `canonicalize`). -/

/-- Field lists sorted by key. -/
def sortPairs (l : List (String × Value)) : List (String × Value) :=
  l.insertionSort (fun p q => p.1 ≤ q.1)

/-- Entries whose value is not treated as absent. -/
def fNS (l : List (String × Value)) : List (String × Value) :=
  l.filter (fun p => !isSkip p.2)

mutual

/-- Normal form: arrays normalized element-wise; object fields normalized,
absent-valued fields dropped, and the rest sorted by key. -/
def vnorm : Value → Value
  | .varr xs => .varr (vnormArr xs)
  | .vobj l => .vobj (sortPairs (fNS (vnormFields l)))
  | v => v

def vnormArr : List Value → List Value
  | [] => []
  | v :: vs => vnorm v :: vnormArr vs

def vnormFields : List (String × Value) → List (String × Value)
  | [] => []
  | (k, v) :: l => (k, vnorm v) :: vnormFields l

end

/-- Key lists without duplicates, as a Boolean (JS objects cannot repeat
keys; the association-list model needs this as an explicit hypothesis). -/
def nodupKeysB : List (String × Value) → Bool
  | [] => true
  | (k, _) :: l => !((l.map Prod.fst).contains k) && nodupKeysB l

mutual

/-- Well-formedness for the key-order-invariance statement: every object at
every depth has duplicate-free keys and no truthy `toJSON` field (a truthy
`toJSON` field sends `canonicalize` down the `JSON.stringify` escape hatch,
which is order-sensitive). -/
def wfB : Value → Bool
  | .varr xs => wfArrB xs
  | .vobj l => nodupKeysB l && !hasTruthyToJSON l && wfFieldsB l
  | _ => true

def wfArrB : List Value → Bool
  | [] => true
  | v :: vs => wfB v && wfArrB vs

def wfFieldsB : List (String × Value) → Bool
  | [] => true
  | (_, v) :: l => wfB v && wfFieldsB l

end

mutual

/-- Structural size, for strong induction over nested values. -/
def vsize : Value → Nat
  | .varr xs => 1 + asize xs
  | .vobj l => 1 + osize l
  | _ => 1

def asize : List Value → Nat
  | [] => 0
  | v :: vs => vsize v + asize vs

def osize : List (String × Value) → Nat
  | [] => 0
  | (_, v) :: l => vsize v + osize l

end

/-- Duplicate-free keys, as a proposition. -/
def NodupKeys (l : List (String × Value)) : Prop := (l.map Prod.fst).Nodup

/-- The rendered body of `canonicalize`'s object branch. -/
def objBody (l : List (String × Value)) : String :=
  renderKeys (canonFields l) (sortStrs (l.map Prod.fst)) ""

theorem canonV_vobj_eq (l : List (String × Value)) :
    canonV (.vobj l) =
      if hasTruthyToJSON l then jsonStr (.vobj l)
      else "\x7b" ++ objBody l ++ "\x7d" := rfl

theorem canonV_vobj {l : List (String × Value)} (h : hasTruthyToJSON l = false) :
    canonV (.vobj l) = "\x7b" ++ objBody l ++ "\x7d" := by
  rw [canonV_vobj_eq, h]
  simp

/-! ### Supporting lemmas -/

theorem ne_empty_of_length_pos {s : String} (h : 0 < s.length) : s ≠ "" := by
  intro he
  subst he
  simp at h

theorem toDigits_length_pos (n : Nat) : 0 < (Nat.toDigits 10 n).length := by
  rw [Nat.toDigits, Nat.toDigitsCore]
  by_cases hz : n / 10 = 0
  · simp [hz]
  · simp only [hz, if_false]
    rw [Nat.toDigitsCore_lens_eq]
    omega

theorem natRepr_length_pos (n : Nat) : 0 < (Nat.repr n).length := by
  show 0 < (Nat.toDigits 10 n).asString.length
  simpa [List.asString, String.length] using toDigits_length_pos n

theorem canonV_ne_empty (v : Value) : canonV v ≠ "" := by
  cases v with
  | vnull => decide
  | vbool b => cases b <;> decide
  | vnum n =>
    show toString n ≠ ""
    apply ne_empty_of_length_pos
    show 0 < (Int.repr n).length
    cases n with
    | ofNat m => simpa [Int.repr] using natRepr_length_pos m
    | negSucc m =>
      simp only [Int.repr, String.length_append]
      have : 0 < ("-" : String).length := by decide
      omega
  | vstr s =>
    apply ne_empty_of_length_pos
    show 0 < ("\"" ++ String.join (s.data.map jsonEscapeChar) ++ "\"").length
    simp only [String.length_append]
    have : 0 < ("\"" : String).length := by decide
    omega
  | vundef => decide
  | vsym => decide
  | varr xs =>
    apply ne_empty_of_length_pos
    show 0 < ("[" ++ canonArr xs ++ "]").length
    simp only [String.length_append]
    have : 0 < ("[" : String).length := by decide
    omega
  | vobj l =>
    apply ne_empty_of_length_pos
    rw [canonV_vobj_eq]
    by_cases h : hasTruthyToJSON l = true
    · rw [if_pos h]
      show 0 < ("\x7b" ++ jsonObj l ++ "\x7d").length
      simp only [String.length_append]
      have : 0 < ("\x7b" : String).length := by decide
      omega
    · rw [if_neg h]
      simp only [String.length_append]
      have : 0 < ("\x7b" : String).length := by decide
      omega

theorem alookup_eq_none {α : Type} {k : String} {l : List (String × α)}
    (h : k ∉ l.map Prod.fst) : alookup k l = none := by
  induction l with
  | nil => rfl
  | cons p l ih =>
    obtain ⟨k', v⟩ := p
    simp only [List.map_cons, List.mem_cons] at h
    push_neg at h
    simp [alookup, h.1, ih h.2]

theorem alookup_mem {α : Type} {k : String} {v : α} {l : List (String × α)}
    (h : alookup k l = some v) : (k, v) ∈ l := by
  induction l with
  | nil => simp [alookup] at h
  | cons p l ih =>
    obtain ⟨k', w⟩ := p
    by_cases hk : k = k'
    · subst hk
      rw [alookup, if_pos rfl] at h
      injection h with h
      subst h
      exact List.mem_cons_self _ _
    · simp only [alookup, if_neg hk] at h
      exact List.mem_cons_of_mem _ (ih h)

theorem alookup_isSome_of_mem_keys {α : Type} {k : String} {l : List (String × α)}
    (h : k ∈ l.map Prod.fst) : ∃ v, alookup k l = some v := by
  induction l with
  | nil => simp at h
  | cons p l ih =>
    obtain ⟨k', v⟩ := p
    by_cases hk : k = k'
    · exact ⟨v, by simp [alookup, hk]⟩
    · simp only [List.map_cons, List.mem_cons] at h
      rcases h with h | h
      · exact absurd h hk
      · obtain ⟨w, hw⟩ := ih h
        exact ⟨w, by simp [alookup, hk, hw]⟩

theorem alookup_perm {α : Type} {l l' : List (String × α)} (hp : l.Perm l')
    (hnd : (l.map Prod.fst).Nodup) (k : String) : alookup k l = alookup k l' := by
  induction hp with
  | nil => rfl
  | cons p hp ih =>
    obtain ⟨k', v⟩ := p
    simp only [List.map_cons, List.nodup_cons] at hnd
    by_cases hk : k = k'
    · simp [alookup, hk]
    · simp [alookup, hk, ih hnd.2]
  | swap p q l =>
    obtain ⟨k₁, v₁⟩ := p
    obtain ⟨k₂, v₂⟩ := q
    simp only [List.map_cons, List.nodup_cons, List.mem_cons] at hnd
    have hne : k₂ ≠ k₁ := fun h => hnd.1 (Or.inl h)
    have hne' : k₁ ≠ k₂ := Ne.symm hne
    by_cases h1 : k = k₁ <;> by_cases h2 : k = k₂
    · exact absurd (h1.symm.trans h2) hne'
    all_goals simp [alookup, h1, h2, hne, hne']
  | trans hp₁ hp₂ ih₁ ih₂ =>
    have hnd' := ((hp₁.map Prod.fst).nodup_iff).mp hnd
    exact (ih₁ hnd).trans (ih₂ hnd')

theorem keys_canonFields (l : List (String × Value)) :
    (canonFields l).map Prod.fst = l.map Prod.fst := by
  induction l with
  | nil => rfl
  | cons p l ih =>
    obtain ⟨k, v⟩ := p
    simp [canonFields, ih]

theorem alookup_canonFields (k : String) (l : List (String × Value)) :
    alookup k (canonFields l) =
      (alookup k l).map (fun v => if isSkip v then "" else canonV v) := by
  induction l with
  | nil => rfl
  | cons p l ih =>
    obtain ⟨k', v⟩ := p
    by_cases hk : k = k' <;> simp [canonFields, alookup, hk, ih]

theorem nodupKeysB_iff {l : List (String × Value)} :
    nodupKeysB l = true ↔ NodupKeys l := by
  induction l with
  | nil => simp [nodupKeysB, NodupKeys]
  | cons p l ih =>
    obtain ⟨k, v⟩ := p
    simp [nodupKeysB, NodupKeys, ih, List.nodup_cons]

theorem sortStrs_perm (l : List String) : (sortStrs l).Perm l :=
  List.perm_insertionSort _ l

theorem sortStrs_sorted (l : List String) : (sortStrs l).Sorted (· ≤ ·) :=
  List.sorted_insertionSort _ l

theorem sortStrs_eq_of_perm {l l' : List String} (h : l.Perm l') :
    sortStrs l = sortStrs l' :=
  List.eq_of_perm_of_sorted ((sortStrs_perm l).trans (h.trans (sortStrs_perm l').symm))
    (sortStrs_sorted l) (sortStrs_sorted l')

theorem sortPairs_perm (l : List (String × Value)) : (sortPairs l).Perm l :=
  List.perm_insertionSort _ l

/-- Keys that contribute a rendered field (nonempty rendered value). -/
def goodKey (m : List (String × String)) (k : String) : Bool :=
  !((alookup k m).getD "" == "")

theorem goodKey_eq_true {m : List (String × String)} {k : String} :
    goodKey m k = true ↔ (alookup k m).getD "" ≠ "" := by
  simp [goodKey]

theorem renderKeys_filter (m : List (String × String)) (ks : List String) (t : String) :
    renderKeys m ks t = renderKeys m (ks.filter (goodKey m)) t := by
  induction ks generalizing t with
  | nil => rfl
  | cons k ks ih =>
    by_cases h : (alookup k m).getD "" = ""
    · have hg : goodKey m k = false := by
        simp [goodKey, h]
      simp only [renderKeys, h, if_pos, List.filter_cons, hg]
      simpa [h] using ih t
    · have hg : goodKey m k = true := goodKey_eq_true.mpr h
      simp only [renderKeys, List.filter_cons, hg]
      simp only [if_neg h, if_true]
      exact ih _

theorem renderKeys_congr {m₁ m₂ : List (String × String)} {ks : List String}
    (h : ∀ k ∈ ks, (alookup k m₁).getD "" = (alookup k m₂).getD "") (t : String) :
    renderKeys m₁ ks t = renderKeys m₂ ks t := by
  induction ks generalizing t with
  | nil => rfl
  | cons k ks ih =>
    have hk := h k (List.mem_cons_self _ _)
    have hrest : ∀ k' ∈ ks, (alookup k' m₁).getD "" = (alookup k' m₂).getD "" :=
      fun k' hk' => h k' (List.mem_cons_of_mem _ hk')
    simp only [renderKeys, hk]
    by_cases he : (alookup k m₂).getD "" = "" <;> simp only [he, if_pos, if_neg, if_true] <;>
      exact ih hrest _

theorem mem_fNS_unskipped {p : String × Value} {l : List (String × Value)}
    (h : p ∈ fNS l) : isSkip p.2 = false := by
  have := List.of_mem_filter h
  simpa using this

theorem alookup_fNS {l : List (String × Value)} (hnd : NodupKeys l) (k : String) :
    alookup k (fNS l) = (alookup k l).bind (fun v => if isSkip v then none else some v) := by
  induction l with
  | nil => rfl
  | cons p l ih =>
    obtain ⟨k', v⟩ := p
    simp only [NodupKeys, List.map_cons, List.nodup_cons] at hnd
    by_cases hk : k = k'
    · subst hk
      by_cases hs : isSkip v
      · have hnone : alookup k (fNS l) = none := by
          rw [alookup_eq_none]
          intro hmem
          apply hnd.1
          simp only [List.mem_map] at hmem ⊢
          obtain ⟨p, hp, hpk⟩ := hmem
          exact ⟨p, List.mem_of_mem_filter hp, hpk⟩
        have hdrop : fNS ((k, v) :: l) = fNS l := by
          simp [fNS, List.filter_cons, hs]
        rw [hdrop, alookup, if_pos rfl, Option.some_bind, if_pos hs, hnone]
      · simp [fNS, List.filter_cons, hs, alookup]
    · by_cases hs : isSkip v
      · simp only [fNS, List.filter_cons, hs, Bool.not_true, if_neg]
        simpa [fNS, alookup, hk] using ih hnd.2
      · simp only [fNS, List.filter_cons, hs, Bool.not_false]
        simp only [alookup, if_neg hk]
        simpa [fNS] using ih hnd.2

theorem keys_filter_good {l : List (String × Value)} (hnd : NodupKeys l) :
    (l.map Prod.fst).filter (goodKey (canonFields l)) = (fNS l).map Prod.fst := by
  induction l with
  | nil => rfl
  | cons p l ih =>
    obtain ⟨k, v⟩ := p
    simp only [NodupKeys, List.map_cons, List.nodup_cons] at hnd
    have htl : ∀ k' ∈ l.map Prod.fst,
        goodKey (canonFields ((k, v) :: l)) k' = goodKey (canonFields l) k' := by
      intro k' hk'
      have hne : k' ≠ k := fun h => hnd.1 (h ▸ hk')
      simp [goodKey, canonFields, alookup, hne]
    have hhead : goodKey (canonFields ((k, v) :: l)) k = !isSkip v := by
      by_cases hs : isSkip v
      · simp [goodKey, canonFields, alookup, hs]
      · simp [goodKey, canonFields, alookup, hs, canonV_ne_empty v]
    rw [List.map_cons, List.filter_cons, hhead]
    by_cases hs : isSkip v
    · simp only [hs, Bool.not_true, if_neg]
      rw [List.filter_congr htl, ih hnd.2]
      simp [fNS, List.filter_cons, hs]
    · simp only [hs, Bool.not_false, if_pos]
      rw [List.filter_congr htl, ih hnd.2]
      simp [fNS, List.filter_cons, hs]

theorem good_of_unskipped {l : List (String × Value)}
    (hall : ∀ p ∈ l, isSkip p.2 = false) {k : String} (hk : k ∈ l.map Prod.fst) :
    goodKey (canonFields l) k = true := by
  obtain ⟨v, hv⟩ := alookup_isSome_of_mem_keys hk
  have hmem := alookup_mem hv
  have hskip : isSkip v = false := hall _ hmem
  rw [goodKey_eq_true, alookup_canonFields, hv]
  simp [hskip, canonV_ne_empty v]

/-- Reordering the fields of a duplicate-key-free object does not change the
rendered object body. -/
theorem objBody_perm {l l' : List (String × Value)} (hp : l.Perm l') (hnd : NodupKeys l) :
    objBody l = objBody l' := by
  have hkeys : (l.map Prod.fst).Perm (l'.map Prod.fst) := hp.map Prod.fst
  have hsort : sortStrs (l.map Prod.fst) = sortStrs (l'.map Prod.fst) :=
    sortStrs_eq_of_perm hkeys
  rw [objBody, objBody, hsort]
  apply renderKeys_congr
  intro k _
  rw [alookup_canonFields, alookup_canonFields, alookup_perm hp hnd k]

/-- Dropping absent-valued fields of a duplicate-key-free object does not
change the rendered object body. -/
theorem objBody_fNS {l : List (String × Value)} (hnd : NodupKeys l) :
    objBody l = objBody (fNS l) := by
  have hndf : NodupKeys (fNS l) := by
    have : (fNS l).map Prod.fst |>.Sublist (l.map Prod.fst) :=
      List.Sublist.map _ (List.filter_sublist l)
    exact List.Nodup.sublist this hnd
  have hunsk : ∀ p ∈ fNS l, isSkip p.2 = false := fun p hp => mem_fNS_unskipped hp
  rw [objBody, objBody, renderKeys_filter, renderKeys_filter (canonFields (fNS l))]
  have hF : (sortStrs (l.map Prod.fst)).filter (goodKey (canonFields l)) =
      (sortStrs ((fNS l).map Prod.fst)).filter (goodKey (canonFields (fNS l))) := by
    have h1 : ((sortStrs (l.map Prod.fst)).filter (goodKey (canonFields l))).Perm
        ((fNS l).map Prod.fst) := by
      calc ((sortStrs (l.map Prod.fst)).filter (goodKey (canonFields l))).Perm
            ((l.map Prod.fst).filter (goodKey (canonFields l))) :=
          (sortStrs_perm _).filter _
        _ = (fNS l).map Prod.fst := keys_filter_good hnd
    have h2 : (sortStrs ((fNS l).map Prod.fst)).filter (goodKey (canonFields (fNS l))) =
        sortStrs ((fNS l).map Prod.fst) := by
      apply List.filter_eq_self.mpr
      intro k hk
      exact good_of_unskipped hunsk (((sortStrs_perm _).mem_iff).mp hk)
    rw [h2]
    exact List.eq_of_perm_of_sorted (h1.trans (sortStrs_perm _).symm)
      ((sortStrs_sorted _).filter _) (sortStrs_sorted _)
  rw [hF]
  apply renderKeys_congr
  intro k hk
  have hkmem : k ∈ (fNS l).map Prod.fst := by
    have h2 : (sortStrs ((fNS l).map Prod.fst)).filter (goodKey (canonFields (fNS l))) =
        sortStrs ((fNS l).map Prod.fst) := by
      apply List.filter_eq_self.mpr
      intro k' hk'
      exact good_of_unskipped hunsk (((sortStrs_perm _).mem_iff).mp hk')
    rw [h2] at hk
    exact ((sortStrs_perm _).mem_iff).mp hk
  obtain ⟨v, hv⟩ := alookup_isSome_of_mem_keys hkmem
  have hskip : isSkip v = false := hunsk _ (alookup_mem hv)
  have hl : alookup k l = some v := by
    have hbind := alookup_fNS hnd k
    rw [hv] at hbind
    cases hlk : alookup k l with
    | none =>
      rw [hlk, Option.none_bind] at hbind
      exact absurd hbind (by simp)
    | some w =>
      rw [hlk, Option.some_bind] at hbind
      by_cases hw : isSkip w
      · rw [if_pos hw] at hbind
        exact absurd hbind (by simp)
      · rw [if_neg hw] at hbind
        injection hbind with h
        rw [h]
  rw [alookup_canonFields, alookup_canonFields, hv, hl]

theorem isSkip_vnorm (v : Value) : isSkip (vnorm v) = isSkip v := by
  cases v <;> rfl

theorem isTruthy_vnorm (v : Value) : isTruthy (vnorm v) = isTruthy v := by
  cases v <;> rfl

theorem keys_vnormFields (l : List (String × Value)) :
    (vnormFields l).map Prod.fst = l.map Prod.fst := by
  induction l with
  | nil => rfl
  | cons p l ih =>
    obtain ⟨k, v⟩ := p
    simp [vnormFields, ih]

theorem alookup_vnormFields (k : String) (l : List (String × Value)) :
    alookup k (vnormFields l) = (alookup k l).map vnorm := by
  induction l with
  | nil => rfl
  | cons p l ih =>
    obtain ⟨k', v⟩ := p
    by_cases hk : k = k' <;> simp [vnormFields, alookup, hk, ih]

theorem hasTruthyToJSON_vnormFields (l : List (String × Value)) :
    hasTruthyToJSON (vnormFields l) = hasTruthyToJSON l := by
  rw [hasTruthyToJSON, hasTruthyToJSON, alookup_vnormFields]
  cases alookup "toJSON" l with
  | none => rfl
  | some v => simp [isTruthy_vnorm]

/-- Dropping absent fields and sorting cannot make a falsy (or absent)
`toJSON` field truthy. -/
theorem hasTruthyToJSON_sortPairs_fNS {l : List (String × Value)} (hnd : NodupKeys l)
    (h : hasTruthyToJSON l = false) :
    hasTruthyToJSON (sortPairs (fNS l)) = false := by
  have hndf : NodupKeys (fNS l) := by
    have hsub : ((fNS l).map Prod.fst).Sublist (l.map Prod.fst) :=
      List.Sublist.map _ (List.filter_sublist _)
    exact List.Nodup.sublist hsub hnd
  have hnds : NodupKeys (sortPairs (fNS l)) :=
    (((sortPairs_perm _).map Prod.fst).nodup_iff).mpr hndf
  rw [hasTruthyToJSON, alookup_perm (sortPairs_perm (fNS l)) hnds, alookup_fNS hnd]
  rw [hasTruthyToJSON] at h
  cases hlk : alookup "toJSON" l with
  | none => rfl
  | some v =>
    rw [hlk] at h
    rw [Option.some_bind]
    by_cases hs : isSkip v
    · rw [if_pos hs]
    · rw [if_neg hs]
      exact h

theorem vsize_pos (v : Value) : 0 < vsize v := by
  cases v <;> simp [vsize]

theorem mem_asize {v : Value} {xs : List Value} (h : v ∈ xs) : vsize v ≤ asize xs := by
  induction xs with
  | nil => simp at h
  | cons w xs ih =>
    rcases List.mem_cons.mp h with h | h
    · subst h
      simp [asize]
    · have := ih h
      simp [asize]
      omega

theorem mem_osize {p : String × Value} {l : List (String × Value)} (h : p ∈ l) :
    vsize p.2 ≤ osize l := by
  induction l with
  | nil => simp at h
  | cons q l ih =>
    obtain ⟨k, v⟩ := q
    rcases List.mem_cons.mp h with h | h
    · subst h
      simp [osize]
    · have := ih h
      simp [osize]
      omega

/-- Canonicalization is invariant under normalization: sorting an object's
keys and dropping its absent fields (recursively) does not change the
canonical string, provided no object repeats a key. -/
theorem canonV_vnorm : ∀ (n : Nat) (v : Value), vsize v ≤ n → wfB v = true →
    canonV (vnorm v) = canonV v := by
  intro n
  induction n with
  | zero =>
    intro v hs _
    exact absurd hs (by have := vsize_pos v; omega)
  | succ n ih =>
    intro v hs hwf
    cases v with
    | vnull => rfl
    | vbool b => rfl
    | vnum m => rfl
    | vstr s => rfl
    | vundef => rfl
    | vsym => rfl
    | varr xs =>
      have hsz : asize xs ≤ n := by
        simp only [vsize] at hs
        omega
      have harr : ∀ ys : List Value, asize ys ≤ n → wfArrB ys = true →
          canonArr (vnormArr ys) = canonArr ys := by
        intro ys
        induction ys with
        | nil => intro _ _; rfl
        | cons v vs ihys =>
          intro hsz hwf
          simp only [wfArrB, Bool.and_eq_true] at hwf
          have hv : vsize v ≤ n := by
            simp only [asize] at hsz
            have := vsize_pos v
            omega
          have hvs : asize vs ≤ n := by
            simp only [asize] at hsz
            have := vsize_pos v
            omega
          cases vs with
          | nil =>
            show canonArr [vnorm v] = canonArr [v]
            simp only [canonArr, isSkip_vnorm]
            by_cases hsk : isSkip v
            · simp [hsk]
            · simp only [hsk, if_neg, Bool.false_eq_true, if_false]
              exact ih v hv hwf.1
          | cons v' vs' =>
            show canonArr (vnorm v :: vnormArr (v' :: vs')) = canonArr (v :: v' :: vs')
            have htl := ihys hvs hwf.2
            rw [show vnormArr (v' :: vs') = vnorm v' :: vnormArr vs' from rfl]
            simp only [canonArr, isSkip_vnorm]
            rw [show (vnorm v' :: vnormArr vs' : List Value) = vnormArr (v' :: vs') from rfl]
            rw [htl]
            by_cases hsk : isSkip v
            · simp [hsk]
            · simp only [hsk, Bool.false_eq_true, if_false]
              rw [ih v hv hwf.1]
      show canonV (.varr (vnormArr xs)) = canonV (.varr xs)
      show "[" ++ canonArr (vnormArr xs) ++ "]" = "[" ++ canonArr xs ++ "]"
      rw [harr xs hsz (by simpa [wfB] using hwf)]
    | vobj l =>
      simp only [wfB, Bool.and_eq_true] at hwf
      obtain ⟨⟨hwf1, hwf2⟩, hwf3⟩ := hwf
      have hnd : NodupKeys l := nodupKeysB_iff.mp hwf1
      have htj : hasTruthyToJSON l = false := by
        simpa using hwf2
      have hsz : osize l ≤ n := by
        simp only [vsize] at hs
        omega
      have hfields : ∀ l' : List (String × Value), osize l' ≤ n → wfFieldsB l' = true →
          canonFields (vnormFields l') = canonFields l' := by
        intro l'
        induction l' with
        | nil => intro _ _; rfl
        | cons p tl ihl =>
          intro hsz hwf
          obtain ⟨k, v⟩ := p
          simp only [wfFieldsB, Bool.and_eq_true] at hwf
          have hv : vsize v ≤ n := by
            simp only [osize] at hsz
            omega
          have htl : osize tl ≤ n := by
            simp only [osize] at hsz
            have := vsize_pos v
            omega
          show (k, if isSkip (vnorm v) then "" else canonV (vnorm v)) :: canonFields (vnormFields tl) =
            (k, if isSkip v then "" else canonV v) :: canonFields tl
          rw [isSkip_vnorm, ihl htl hwf.2]
          by_cases hsk : isSkip v
          · simp [hsk]
          · simp only [hsk, Bool.false_eq_true, if_false, ih v hv hwf.1]
      have hcf : canonFields (vnormFields l) = canonFields l := hfields l hsz hwf3
      have hkeys : (vnormFields l).map Prod.fst = l.map Prod.fst := keys_vnormFields l
      have hnd' : NodupKeys (vnormFields l) := by
        unfold NodupKeys
        rw [hkeys]
        exact hnd
      have hndf : NodupKeys (fNS (vnormFields l)) := by
        have hsub : ((fNS (vnormFields l)).map Prod.fst).Sublist ((vnormFields l).map Prod.fst) :=
          List.Sublist.map _ (List.filter_sublist _)
        exact List.Nodup.sublist hsub hnd'
      have hnds : NodupKeys (sortPairs (fNS (vnormFields l))) := by
        unfold NodupKeys
        exact (((sortPairs_perm _).map Prod.fst).nodup_iff).mpr hndf
      have htjL : hasTruthyToJSON (sortPairs (fNS (vnormFields l))) = false := by
        apply hasTruthyToJSON_sortPairs_fNS hnd'
        rw [hasTruthyToJSON_vnormFields]
        exact htj
      show canonV (.vobj (sortPairs (fNS (vnormFields l)))) = canonV (.vobj l)
      rw [canonV_vobj htjL, canonV_vobj htj]
      have h1 : objBody (sortPairs (fNS (vnormFields l))) = objBody (fNS (vnormFields l)) :=
        objBody_perm (sortPairs_perm _) hnds
      have h2 : objBody (fNS (vnormFields l)) = objBody (vnormFields l) :=
        (objBody_fNS hnd').symm
      have h3 : objBody (vnormFields l) = objBody l := by
        rw [objBody, objBody, hcf, hkeys]
      rw [h1, h2, h3]

/-- Values with equal normal forms canonicalize identically. -/
theorem canonV_respects_norm {v₁ v₂ : Value} (h₁ : wfB v₁ = true) (h₂ : wfB v₂ = true)
    (h : vnorm v₁ = vnorm v₂) : canonV v₁ = canonV v₂ := by
  rw [← canonV_vnorm (vsize v₁) v₁ le_rfl h₁, h, canonV_vnorm (vsize v₂) v₂ le_rfl h₂]

/-! ## Claim C4 and C9 theorems -/

/-- **C4** (amended): for every purchaser identifier and every pair of
object inputs that are logically equal (equal after recursively sorting
object keys and dropping `undefined`-valued fields, i.e. equal `vnorm`
normal forms) but may differ in key insertion order at any nesting depth or
in the presence of `undefined`-valued fields, *provided no object at any
depth carries a truthy `toJSON` field* (such an object is serialized by
`JSON.stringify` in insertion order instead of being canonicalized),
`generateInputHash` returns the same digest; the digest is
`SHA256(purchaserId ++ ";" ++ canonicalForm)` and is always a 64-character
string of lowercase hex digits.  (Determinism across repeated calls is
definitional for a pure function.) -/
theorem generateInputHash_keyOrder_invariant (idp : String)
    (l₁ l₂ : List (String × Value))
    (h₁ : wfB (.vobj l₁) = true) (h₂ : wfB (.vobj l₂) = true)
    (hnorm : vnorm (.vobj l₁) = vnorm (.vobj l₂)) :
    generateInputHashTop idp (.vobj l₁) = generateInputHashTop idp (.vobj l₂) ∧
    generateInputHashTop idp (.vobj l₁) =
      .ok (createHash (idp ++ ";" ++ canonV (.vobj l₁))) ∧
    (generateInputHash idp (.vobj l₁)).length = 64 ∧
    ∀ c ∈ (generateInputHash idp (.vobj l₁)).data, c ∈ hexAlphabet := by
  have hc : canonV (.vobj l₁) = canonV (.vobj l₂) := canonV_respects_norm h₁ h₂ hnorm
  refine ⟨?_, rfl, createHash_length _, fun c hc' => createHash_mem_hex _ c hc'⟩
  show Except.ok (generateInputHash idp (.vobj l₁)) =
    Except.ok (generateInputHash idp (.vobj l₂))
  rw [generateInputHash, generateInputHash, hc]

/-- Witness for C4 at a concrete input: reordering keys and adding an
`undefined` field leaves the digest unchanged. -/
theorem generateInputHash_keyOrder_invariant_witness :
    generateInputHashTop "user1"
        (.vobj [("b", .vnum 1), ("a", .vstr "x"), ("c", .vundef)]) =
      generateInputHashTop "user1" (.vobj [("a", .vstr "x"), ("b", .vnum 1)]) ∧
    generateInputHashTop "user1"
        (.vobj [("b", .vnum 1), ("a", .vstr "x"), ("c", .vundef)]) =
      .ok (createHash ("user1" ++ ";" ++
        canonV (.vobj [("b", .vnum 1), ("a", .vstr "x"), ("c", .vundef)]))) ∧
    (generateInputHash "user1"
      (.vobj [("b", .vnum 1), ("a", .vstr "x"), ("c", .vundef)])).length = 64 ∧
    ∀ c ∈ (generateInputHash "user1"
      (.vobj [("b", .vnum 1), ("a", .vstr "x"), ("c", .vundef)])).data, c ∈ hexAlphabet :=
  generateInputHash_keyOrder_invariant "user1"
    [("b", .vnum 1), ("a", .vstr "x"), ("c", .vundef)]
    [("a", .vstr "x"), ("b", .vnum 1)] rfl rfl (by with_unfolding_all rfl)

/-- Counterexample to C4 as stated: `canonicalize` begins with
`if (obj === null || typeof obj !== 'object' || obj.toJSON) return
JSON.stringify(obj)`, so an object with a truthy field *named* `toJSON`
(plain data, reachable from `JSON.parse`) is serialized in insertion
order.  The two objects below are logically equal and differ only in key
insertion order, yet their digests differ. -/
theorem generateInputHash_toJSON_counterexample :
    vnorm (.vobj [("toJSON", .vnum 1), ("b", .vnum 2)]) =
      vnorm (.vobj [("b", .vnum 2), ("toJSON", .vnum 1)]) ∧
    generateInputHashTop "user1" (.vobj [("toJSON", .vnum 1), ("b", .vnum 2)]) ≠
      generateInputHashTop "user1" (.vobj [("b", .vnum 2), ("toJSON", .vnum 1)]) :=
  ⟨by with_unfolding_all rfl,
   fun h => absurd (Except.ok.inj h) (of_decide_eq_false (by with_unfolding_all rfl))⟩

/-- **C9** (amended): `generateInputHash` succeeds exactly on the inputs
whose `typeof` is `'object'` (objects and arrays); it raises a `TypeError`
on every scalar: numbers, booleans and `null` are not iterable, and
strings, though iterable, iterate into primitive strings, which
`Object.fromEntries` rejects as non-object entries. -/
theorem generateInputHash_totality (idp : String) :
    (∀ l, (generateInputHashTop idp (.vobj l)).isOk = true) ∧
    (∀ xs, (generateInputHashTop idp (.varr xs)).isOk = true) ∧
    (∀ s, (generateInputHashTop idp (.vstr s)).isOk = false) ∧
    (generateInputHashTop idp .vnull).isOk = false ∧
    (∀ n, (generateInputHashTop idp (.vnum n)).isOk = false) ∧
    (∀ b, (generateInputHashTop idp (.vbool b)).isOk = false) :=
  ⟨fun _ => rfl, fun _ => rfl, fun _ => rfl, rfl, fun _ => rfl, fun _ => rfl⟩

/-- Counterexample to C9 as stated: the number `5` is a perfectly
serializable, non-cyclic value, yet `generateInputHash` raises a
`TypeError` on it (`Object.fromEntries(5)` — a number is not iterable). -/
theorem generateInputHash_scalar_counterexample :
    generateInputHashTop "user1" (.vnum 5) =
      .error "TypeError: inputData is not iterable" := rfl

/-! ## Payment status interpretation and polling
(`nodes/MasumiPaywall/check-payment-status.ts`) -/

/-- A payment record as returned by `checkPaymentStatus` (only the fields
the classification logic reads; `NextAction`/`PaidFunds`/
`CurrentTransaction` are carried opaquely by the source and never
inspected). -/
structure PaymentStatus where
  blockchainIdentifier : String
  onChainState : Option String
  inputHash : String
deriving Repr, DecidableEq

/-- The result record of `pollPaymentStatus`. -/
structure PaymentStatusResult where
  success : Bool
  status : String
  payment : Option PaymentStatus
  message : String
deriving Repr, DecidableEq

/-- The record returned by `interpretPaymentStatus`. -/
structure Interpretation where
  isConfirmed : Bool
  isError : Bool
  shouldContinuePolling : Bool
  message : String
deriving Repr, DecidableEq

/-- The five terminal error states. -/
def errorStates : List String :=
  ["FundsOrDatumInvalid", "RefundRequested", "Disputed", "RefundWithdrawn",
   "DisputedWithdrawn"]

/-- The `onChainState && [...].includes(onChainState)` test: `null` and the
empty string are falsy, so they never reach `includes`. -/
def isErrorState : Option String → Bool
  | some s => (s != "") && errorStates.contains s
  | none => false

/-- `onChainState || 'pending'`: JavaScript `||` yields the fallback for
`null` and for the empty string. -/
def orPending : Option String → String
  | some s => if s = "" then "pending" else s
  | none => "pending"

/-- `interpretPaymentStatus` of `check-payment-status.ts`. -/
def interpretPaymentStatus (status : Option PaymentStatus) : Interpretation :=
  match status with
  | none => ⟨false, false, true, "payment not found"⟩
  | some st =>
    if st.onChainState = some "FundsLocked" then
      ⟨true, false, false, "funds locked - payment confirmed"⟩
    else if st.onChainState = some "ResultSubmitted" ∨ st.onChainState = some "Withdrawn" then
      ⟨true, false, false, "payment already processed"⟩
    else if isErrorState st.onChainState then
      ⟨false, true, false, "payment failed: " ++ st.onChainState.getD ""⟩
    else
      ⟨false, false, true, "still processing: " ++ orPending st.onChainState⟩

/-- One iteration of the polling loop observes either a thrown query error
(the `catch` branch: log and keep polling), a lookup miss (`null`), or a
payment record. -/
inductive QueryOutcome where
  | qerror
  | qnotFound
  | qfound (st : PaymentStatus)
deriving Repr, DecidableEq

/-- The `while (Date.now() - startTime < timeoutMs)` loop of
`pollPaymentStatus`, with the time budget abstracted into the list of query
outcomes the loop gets to observe before the deadline: each list element is
one iteration, and the end of the list is the deadline.  `last` is the
`lastPaymentStatus` accumulator (the last successfully observed payment
state, kept for timeout reporting). -/
def pollAux (timeoutMinutes : Nat) (last : Option PaymentStatus) :
    List QueryOutcome → PaymentStatusResult
  | [] =>
    ⟨false, "timeout", last,
      "payment polling timeout after " ++ toString timeoutMinutes ++ " minutes"⟩
  | q :: rest =>
    match q with
    | .qerror => pollAux timeoutMinutes last rest
    | .qnotFound => pollAux timeoutMinutes last rest
    | .qfound st =>
      if st.onChainState = some "FundsLocked" then
        ⟨true, "FundsLocked", some st, "payment confirmed"⟩
      else if st.onChainState = some "ResultSubmitted" ∨
          st.onChainState = some "Withdrawn" then
        ⟨true, st.onChainState.getD "", some st, "payment already processed"⟩
      else if isErrorState st.onChainState then
        ⟨false, st.onChainState.getD "", some st,
          "payment failed: " ++ st.onChainState.getD ""⟩
      else pollAux timeoutMinutes (some st) rest

/-- `pollPaymentStatus` (the variant tracking `lastPaymentStatus`). -/
def pollPaymentStatus (timeoutMinutes : Nat) (queries : List QueryOutcome) :
    PaymentStatusResult :=
  pollAux timeoutMinutes none queries

/-- The last successfully observed payment record over a run. -/
def lastFound (last : Option PaymentStatus) : List QueryOutcome → Option PaymentStatus
  | [] => last
  | .qfound st :: rest => lastFound (some st) rest
  | _ :: rest => lastFound last rest

theorem errorState_ne_empty {e : String} (he : e ∈ errorStates) : e ≠ "" := by
  fin_cases he <;> decide

/-- **C1**: the poller's classification of `onChainState` is exactly:
`FundsLocked`, `ResultSubmitted` and `Withdrawn` are success and terminal;
the five error states are error and terminal; a missing record, a `null`
state, or any other string is pending and non-terminal.  The polling loop
continues exactly on the non-terminal classifications and returns
immediately (ignoring the remaining budget) on the terminal ones. -/
theorem paymentStateClassification (st : PaymentStatus) (s : String)
    (hs : s ∉ "FundsLocked" :: "ResultSubmitted" :: "Withdrawn" :: errorStates) :
    interpretPaymentStatus none = ⟨false, false, true, "payment not found"⟩ ∧
    (st.onChainState = some "FundsLocked" →
      interpretPaymentStatus (some st) =
        ⟨true, false, false, "funds locked - payment confirmed"⟩) ∧
    (st.onChainState = some "ResultSubmitted" ∨ st.onChainState = some "Withdrawn" →
      (interpretPaymentStatus (some st)).isConfirmed = true ∧
      (interpretPaymentStatus (some st)).isError = false ∧
      (interpretPaymentStatus (some st)).shouldContinuePolling = false) ∧
    (∀ e ∈ errorStates, st.onChainState = some e →
      (interpretPaymentStatus (some st)).isConfirmed = false ∧
      (interpretPaymentStatus (some st)).isError = true ∧
      (interpretPaymentStatus (some st)).shouldContinuePolling = false) ∧
    (st.onChainState = none →
      interpretPaymentStatus (some st) = ⟨false, false, true, "still processing: pending"⟩) ∧
    (st.onChainState = some s →
      (interpretPaymentStatus (some st)).isConfirmed = false ∧
      (interpretPaymentStatus (some st)).isError = false ∧
      (interpretPaymentStatus (some st)).shouldContinuePolling = true) ∧
    (∀ tm last rest rest',
      ((interpretPaymentStatus (some st)).shouldContinuePolling = true →
        pollAux tm last (.qfound st :: rest) = pollAux tm (some st) rest) ∧
      ((interpretPaymentStatus (some st)).shouldContinuePolling = false →
        pollAux tm last (.qfound st :: rest) = pollAux tm last (.qfound st :: rest'))) := by
  simp only [List.mem_cons, not_or] at hs
  obtain ⟨hs1, hs2, hs3, hs4⟩ := hs
  refine ⟨rfl, ?_, ?_, ?_, ?_, ?_, ?_⟩
  · intro h
    simp [interpretPaymentStatus, h]
  · intro h
    rcases h with h | h <;> simp [interpretPaymentStatus, h]
  · intro e he h
    have hne := errorState_ne_empty he
    fin_cases he <;> simp [interpretPaymentStatus, isErrorState, errorStates, h]
  · intro h
    simp [interpretPaymentStatus, isErrorState, orPending, h]
  · intro h
    simp [interpretPaymentStatus, isErrorState, h, hs1, hs2, hs3, hs4]
  · intro tm last rest rest'
    constructor
    · intro h
      by_cases c1 : st.onChainState = some "FundsLocked"
      · simp [interpretPaymentStatus, c1] at h
      by_cases c2 : st.onChainState = some "ResultSubmitted" ∨ st.onChainState = some "Withdrawn"
      · simp [interpretPaymentStatus, c1, c2] at h
      by_cases c3 : isErrorState st.onChainState
      · simp [interpretPaymentStatus, c1, c2, c3] at h
      simp [pollAux, c1, c2, c3]
    · intro h
      by_cases c1 : st.onChainState = some "FundsLocked"
      · simp [pollAux, c1]
      by_cases c2 : st.onChainState = some "ResultSubmitted" ∨ st.onChainState = some "Withdrawn"
      · simp [pollAux, c1, c2]
      by_cases c3 : isErrorState st.onChainState
      · simp [pollAux, c1, c2, c3]
      simp [interpretPaymentStatus, c1, c2, c3] at h

/-- Witness for C1 at concrete inputs. -/
theorem paymentStateClassification_witness :
    interpretPaymentStatus none = ⟨false, false, true, "payment not found"⟩ ∧
    ((⟨"bid", some "Processing", "ih"⟩ : PaymentStatus).onChainState = some "FundsLocked" →
      interpretPaymentStatus (some ⟨"bid", some "Processing", "ih"⟩) =
        ⟨true, false, false, "funds locked - payment confirmed"⟩) ∧
    ((⟨"bid", some "Processing", "ih"⟩ : PaymentStatus).onChainState = some "ResultSubmitted" ∨
      (⟨"bid", some "Processing", "ih"⟩ : PaymentStatus).onChainState = some "Withdrawn" →
      (interpretPaymentStatus (some ⟨"bid", some "Processing", "ih"⟩)).isConfirmed = true ∧
      (interpretPaymentStatus (some ⟨"bid", some "Processing", "ih"⟩)).isError = false ∧
      (interpretPaymentStatus (some ⟨"bid", some "Processing", "ih"⟩)).shouldContinuePolling = false) ∧
    (∀ e ∈ errorStates, (⟨"bid", some "Processing", "ih"⟩ : PaymentStatus).onChainState = some e →
      (interpretPaymentStatus (some ⟨"bid", some "Processing", "ih"⟩)).isConfirmed = false ∧
      (interpretPaymentStatus (some ⟨"bid", some "Processing", "ih"⟩)).isError = true ∧
      (interpretPaymentStatus (some ⟨"bid", some "Processing", "ih"⟩)).shouldContinuePolling = false) ∧
    ((⟨"bid", some "Processing", "ih"⟩ : PaymentStatus).onChainState = none →
      interpretPaymentStatus (some ⟨"bid", some "Processing", "ih"⟩) =
        ⟨false, false, true, "still processing: pending"⟩) ∧
    ((⟨"bid", some "Processing", "ih"⟩ : PaymentStatus).onChainState = some "Processing" →
      (interpretPaymentStatus (some ⟨"bid", some "Processing", "ih"⟩)).isConfirmed = false ∧
      (interpretPaymentStatus (some ⟨"bid", some "Processing", "ih"⟩)).isError = false ∧
      (interpretPaymentStatus (some ⟨"bid", some "Processing", "ih"⟩)).shouldContinuePolling = true) ∧
    (∀ tm last rest rest',
      ((interpretPaymentStatus (some ⟨"bid", some "Processing", "ih"⟩)).shouldContinuePolling = true →
        pollAux tm last (.qfound ⟨"bid", some "Processing", "ih"⟩ :: rest) = pollAux tm (some ⟨"bid", some "Processing", "ih"⟩) rest) ∧
      ((interpretPaymentStatus (some ⟨"bid", some "Processing", "ih"⟩)).shouldContinuePolling = false →
        pollAux tm last (.qfound ⟨"bid", some "Processing", "ih"⟩ :: rest) =
          pollAux tm last (.qfound ⟨"bid", some "Processing", "ih"⟩ :: rest'))) :=
  paymentStateClassification ⟨"bid", some "Processing", "ih"⟩ "Processing" (by decide)

theorem pollAux_timeout (tm : Nat) (qs : List QueryOutcome) :
    ∀ last, (∀ st, QueryOutcome.qfound st ∈ qs →
      (interpretPaymentStatus (some st)).shouldContinuePolling = true) →
    pollAux tm last qs = ⟨false, "timeout", lastFound last qs,
      "payment polling timeout after " ++ toString tm ++ " minutes"⟩ := by
  induction qs with
  | nil => intro last _; rfl
  | cons q rest ih =>
    intro last h
    have hrest : ∀ st, QueryOutcome.qfound st ∈ rest →
        (interpretPaymentStatus (some st)).shouldContinuePolling = true :=
      fun st hst => h st (List.mem_cons_of_mem _ hst)
    cases q with
    | qerror => simpa [pollAux, lastFound] using ih last hrest
    | qnotFound => simpa [pollAux, lastFound] using ih last hrest
    | qfound st =>
      have hcont := h st (List.mem_cons_self _ _)
      by_cases c1 : st.onChainState = some "FundsLocked"
      · simp [interpretPaymentStatus, c1] at hcont
      by_cases c2 : st.onChainState = some "ResultSubmitted" ∨ st.onChainState = some "Withdrawn"
      · simp [interpretPaymentStatus, c1, c2] at hcont
      by_cases c3 : isErrorState st.onChainState
      · simp [interpretPaymentStatus, c1, c2, c3] at hcont
      simpa [pollAux, lastFound, c1, c2, c3] using ih (some st) hrest

theorem lastFound_eq_none (qs : List QueryOutcome) : ∀ last,
    (lastFound last qs = none ↔ (last = none ∧ ∀ st, QueryOutcome.qfound st ∉ qs)) := by
  induction qs with
  | nil => intro last; simp [lastFound]
  | cons q rest ih =>
    intro last
    cases q with
    | qerror => simp [lastFound, ih]
    | qnotFound => simp [lastFound, ih]
    | qfound st₀ =>
      simp only [lastFound, ih]
      constructor
      · rintro ⟨h, -⟩
        exact absurd h (by simp)
      · rintro ⟨-, h⟩
        exact absurd (h st₀) (by simp)

/-- **C5**: a polling run whose budget elapses without ever observing a
terminal on-chain state returns `success = false`, `status = "timeout"`,
and carries the last successfully observed payment record; the carried
record is `null` exactly when no query during the run found the payment. -/
theorem pollTimeout_lastObserved (tm : Nat) (qs : List QueryOutcome)
    (h : ∀ st, QueryOutcome.qfound st ∈ qs →
      (interpretPaymentStatus (some st)).shouldContinuePolling = true) :
    pollPaymentStatus tm qs = ⟨false, "timeout", lastFound none qs,
      "payment polling timeout after " ++ toString tm ++ " minutes"⟩ ∧
    ((pollPaymentStatus tm qs).payment = none ↔ ∀ st, QueryOutcome.qfound st ∉ qs) := by
  have h1 := pollAux_timeout tm qs none h
  refine ⟨h1, ?_⟩
  rw [pollPaymentStatus, h1]
  simpa using lastFound_eq_none qs none

/-- Witness for C5: a run observing an error, a miss and a pending record
times out carrying that pending record. -/
theorem pollTimeout_lastObserved_witness :
    pollPaymentStatus 10 [.qerror, .qnotFound, .qfound ⟨"bid", some "SomeOtherState", "ih"⟩] =
      ⟨false, "timeout", some ⟨"bid", some "SomeOtherState", "ih"⟩,
        "payment polling timeout after " ++ toString 10 ++ " minutes"⟩ ∧
    ((pollPaymentStatus 10
        [.qerror, .qnotFound, .qfound ⟨"bid", some "SomeOtherState", "ih"⟩]).payment = none ↔
      ∀ st, QueryOutcome.qfound st ∉
        ([.qerror, .qnotFound, .qfound ⟨"bid", some "SomeOtherState", "ih"⟩] :
          List QueryOutcome)) :=
  pollTimeout_lastObserved 10 _ (by
    intro st hst
    simp only [List.mem_cons, List.not_mem_nil, or_false] at hst
    rcases hst with h | h | h
    · exact QueryOutcome.noConfusion h
    · exact QueryOutcome.noConfusion h
    · injection h with h
      subst h
      decide)

/-! ## Purchase request construction (`nodes/MasumiPaywall/create-purchase.ts`) -/

/-- A JSON primitive as it may arrive at runtime in a parsed response
field: the interface declares the timestamp fields `string`, but the value
comes from `response.json()` and `String(...)` is applied defensively. -/
inductive JsPrim where
  | pstr (s : String)
  | pnum (n : Int)
deriving Repr, DecidableEq

/-- JavaScript `String(x)` on a string or number. -/
def jsToString : JsPrim → String
  | .pstr s => s
  | .pnum n => toString n

/-- Payment-service configuration (`MasumiConfig`). -/
structure MasumiConfig where
  paymentServiceUrl : String
  apiKey : String
  agentIdentifier : String
  network : String
  sellerVkey : String
deriving Repr, DecidableEq

/-- The `data` object of a create-invoice (`POST /payment/`) response
(fields the embedded operations read; response fields never read by them
are omitted). -/
structure PaymentResponseData where
  blockchainIdentifier : String
  payByTime : JsPrim
  submitResultTime : JsPrim
  unlockTime : JsPrim
  externalDisputeUnlockTime : JsPrim
  inputHash : String
deriving Repr, DecidableEq

/-- A create-invoice response. -/
structure PaymentResponse where
  status : String
  data : PaymentResponseData
deriving Repr, DecidableEq

/-- The body of the `POST /purchase/` request built by `createPurchase`. -/
structure PurchaseRequestBody where
  identifierFromPurchaser : String
  network : String
  sellerVkey : String
  paymentType : String
  blockchainIdentifier : String
  payByTime : String
  submitResultTime : String
  unlockTime : String
  externalDisputeUnlockTime : String
  agentIdentifier : String
  inputHash : String
deriving Repr, DecidableEq

/-- The `requestBody` constructed by `createPurchase`: exact values from the
payment response, with `String(...)` around the four timestamp fields. -/
def createPurchaseBody (config : MasumiConfig) (paymentResponse : PaymentResponse)
    (identifierFromPurchaser : String) : PurchaseRequestBody :=
  let paymentData := paymentResponse.data
  { identifierFromPurchaser := identifierFromPurchaser
    network := config.network
    sellerVkey := config.sellerVkey
    paymentType := "Web3CardanoV1"
    blockchainIdentifier := paymentData.blockchainIdentifier
    payByTime := jsToString paymentData.payByTime
    submitResultTime := jsToString paymentData.submitResultTime
    unlockTime := jsToString paymentData.unlockTime
    externalDisputeUnlockTime := jsToString paymentData.externalDisputeUnlockTime
    agentIdentifier := config.agentIdentifier
    inputHash := paymentData.inputHash }

/-! ## The job store and lifecycle operations -/

/-- A job's embedded payment sub-record. -/
structure JobPayment where
  blockchainIdentifier : String
  payByTime : JsPrim
  submitResultTime : JsPrim
  unlockTime : JsPrim
  externalDisputeUnlockTime : JsPrim
  inputHash : String
deriving Repr, DecidableEq

/-- A job record (`shared/types.ts`).  `status` is a string: the TypeScript
`JobStatus` union is erased at runtime, and one code path assigns the
out-of-union value `'processing'`. -/
structure Job where
  job_id : String
  identifier_from_purchaser : String
  input_data : Value
  status : String
  payment : Option JobPayment
  result : Option Value
  error : Option String
  created_at : String
  updated_at : String
deriving Repr

/-- The workflow-static job storage: a keyed map of jobs plus the
`last_job_id` tracking field. -/
structure JobStorage where
  jobs : String → Option Job
  last_job_id : Option String

/-- `storeJob`: `storage.jobs[jobId] = job`. -/
def storeJob (storage : JobStorage) (jobId : String) (job : Job) : JobStorage :=
  { storage with jobs := fun k => if k = jobId then some job else storage.jobs k }

/-- `getJob`: `storage.jobs?.[jobId] || null`. -/
def getJob (storage : JobStorage) (jobId : String) : Option Job :=
  storage.jobs jobId

/-- The `job.payment?.blockchainIdentifier` truthiness test (`undefined`
and the empty string are falsy). -/
def paymentHasBid : Option JobPayment → Bool
  | some p => p.blockchainIdentifier != ""
  | none => false

/-- The `paymentStatus.payment?.onChainState === 'FundsLocked'` test. -/
def pollSawFundsLocked (r : PaymentStatusResult) : Bool :=
  match r.payment with
  | some p => p.onChainState == some "FundsLocked"
  | none => false

/-! ### `handleStartJob` (`nodes/MasumiPaywallRespond/handlers/start-job.ts`) -/

/-- The purchaser-identifier hex conversion at the top of `handleStartJob`:
`Buffer.from(identifierFromPurchaser, 'utf8').toString('hex')`, right-padded
with `'0'` to at least 14 characters, truncated to at most 26. -/
def paymentIdChars (identifierFromPurchaser : String) : List Char :=
  let hexString := bytesToHex (utf8Encode identifierFromPurchaser)
  let padded :=
    if hexString.length < 14 then hexString ++ List.replicate (14 - hexString.length) '0'
    else hexString
  if 26 < padded.length then padded.take 26 else padded

/-- The payment identifier as a string. -/
def toPaymentIdentifier (identifierFromPurchaser : String) : String :=
  ⟨paymentIdChars identifierFromPurchaser⟩

/-- The MIP-003 response object assembled by `handleStartJob` (fields absent
from a branch are `none`; `amounts` is omitted as no embedded operation
reads it). -/
structure StartJobResponseData where
  status : Option String
  job_id : Option String
  blockchainIdentifier : Option String
  payByTime : Option JsPrim
  submitResultTime : Option JsPrim
  unlockTime : Option JsPrim
  externalDisputeUnlockTime : Option JsPrim
  agentIdentifier : Option String
  sellerVKey : Option String
  identifierFromPurchaser : Option String
  input_hash : Option String
  error : Option String
  message : Option String
  internalWebhookTriggered : Option String
deriving Repr, DecidableEq

/-- The `StartJobResult` record. -/
structure StartJobResult where
  responseData : StartJobResponseData
  success : Bool
  error : Option String
deriving Repr, DecidableEq

/-- One invocation of `triggerInternalWebhook` (the fire-and-forget
background polling trigger), with the payload it was given. -/
structure TriggerCall where
  jobId : String
  job : Option Job
deriving Repr

/-- Everything `handleStartJob` does: its return value, the storage it
leaves behind, the webhook triggers it fires, and the purchaser identifier
it put into the `createPayment` request body. -/
structure StartJobOutput where
  result : StartJobResult
  storage : JobStorage
  webhookTriggers : List TriggerCall
  sentIdentifierFromPurchaser : String

/-- `handleStartJob` of `handlers/start-job.ts`.  Injected effects:
`jobId` is the `generateIdentifier()` random value, `now` the ISO
timestamp, `paymentOutcome` the result of `await createPayment(...)`, and
`webhookOutcome` the eventual result of the detached
`triggerInternalWebhook` promise — the source only logs it inside
`.then`/`.catch`, so the output cannot depend on it. -/
def handleStartJob (credentials : MasumiConfig) (storage : JobStorage) (jobId : String)
    (identifierFromPurchaser : String) (parsedInputData : Value) (now : String)
    (paymentOutcome : Except String PaymentResponse)
    (webhookOutcome : Except String Unit) : StartJobOutput :=
  let paymentIdentifier := toPaymentIdentifier identifierFromPurchaser
  let inputHash := generateInputHash identifierFromPurchaser parsedInputData
  match paymentOutcome with
  | .ok paymentResponse =>
    let job : Job :=
      { job_id := jobId
        identifier_from_purchaser := paymentIdentifier
        input_data := parsedInputData
        status := "awaiting_payment"
        payment := some
          { blockchainIdentifier := paymentResponse.data.blockchainIdentifier
            payByTime := paymentResponse.data.payByTime
            submitResultTime := paymentResponse.data.submitResultTime
            unlockTime := paymentResponse.data.unlockTime
            externalDisputeUnlockTime := paymentResponse.data.externalDisputeUnlockTime
            inputHash := inputHash }
        result := none
        error := none
        created_at := now
        updated_at := now }
    let storage' := { storeJob storage jobId job with last_job_id := some jobId }
    { result :=
        { responseData :=
            { status := some "success"
              job_id := some jobId
              blockchainIdentifier := some paymentResponse.data.blockchainIdentifier
              payByTime := some paymentResponse.data.payByTime
              submitResultTime := some paymentResponse.data.submitResultTime
              unlockTime := some paymentResponse.data.unlockTime
              externalDisputeUnlockTime := some paymentResponse.data.externalDisputeUnlockTime
              agentIdentifier := some credentials.agentIdentifier
              sellerVKey := some credentials.sellerVkey
              identifierFromPurchaser := some paymentIdentifier
              input_hash := some inputHash
              error := none
              message := none
              internalWebhookTriggered := some "fire-and-forget" }
          success := true
          error := none }
      storage := storage'
      webhookTriggers := [⟨jobId, some job⟩]
      sentIdentifierFromPurchaser := paymentIdentifier }
  | .error errorMessage =>
    { result :=
        { responseData :=
            { status := none
              job_id := some jobId
              blockchainIdentifier := none
              payByTime := none
              submitResultTime := none
              unlockTime := none
              externalDisputeUnlockTime := none
              agentIdentifier := none
              sellerVKey := none
              identifierFromPurchaser := some paymentIdentifier
              input_hash := none
              error := some "job_creation_failed"
              message := some ("Failed to create job: " ++ errorMessage)
              internalWebhookTriggered := some "fire-and-forget" }
          success := false
          error := some errorMessage }
      storage := storage
      webhookTriggers := [⟨jobId, none⟩]
      sentIdentifierFromPurchaser := paymentIdentifier }

/-! ### Status checking / poll advancement
(`job-handler.ts` `handleCheckStatus` and `handlers/status.ts`
`handleStatusResponse`) -/

/-- The `{json: ...}` responses of `handleCheckStatus`. -/
inductive CheckStatusResponse where
  | missingJobId
  | jobNotFound (job_id : String)
  | job (j : Job)

/-- `handleCheckStatus` of `nodes/MasumiPaywall/job-handler.ts`, with the
result of the inner single-check `pollPaymentStatus` call injected as
`pollResult`.  On a confirmed payment it assigns `job.status =
'processing'`. -/
def handleCheckStatus (storage : JobStorage) (jobId? : Option String)
    (pollResult : PaymentStatusResult) (now : String) :
    CheckStatusResponse × JobStorage :=
  match jobId? with
  | none => (.missingJobId, storage)
  | some jobId =>
    if jobId = "" then (.missingJobId, storage)
    else
      match getJob storage jobId with
      | none => (.jobNotFound jobId, storage)
      | some job =>
        if job.status = "awaiting_payment" ∧ paymentHasBid job.payment = true then
          if pollSawFundsLocked pollResult = true then
            let job' := { job with status := "processing", updated_at := now }
            (.job job', storeJob storage jobId job')
          else (.job job, storage)
        else (.job job, storage)

/-- The status responses of `handleStatusResponse` (only the fields the
claims inspect: the response assembly of `payByTime`/`result`/`message` is
not modelled). -/
inductive StatusResponse where
  | missingJobId
  | notFound (job_id : String)
  | ok (job_id : String) (status : String)

/-- `handleStatusResponse` of
`nodes/MasumiPaywallRespond/handlers/status.ts`, with the inner
single-check `pollPaymentStatus` result injected.  On a confirmed payment
it assigns `job.status = 'running'` and persists. -/
def handleStatusResponse (storage : JobStorage) (jobId? : Option String)
    (pollResult : PaymentStatusResult) (now : String) :
    StatusResponse × JobStorage :=
  match jobId? with
  | none => (.missingJobId, storage)
  | some jobId =>
    if jobId = "" then (.missingJobId, storage)
    else
      match getJob storage jobId with
      | none => (.notFound jobId, storage)
      | some job =>
        let storage₁ := { storage with last_job_id := some jobId }
        if job.status = "awaiting_payment" ∧ paymentHasBid job.payment = true then
          if pollSawFundsLocked pollResult = true then
            let job' := { job with status := "running", updated_at := now }
            (.ok jobId job'.status, storeJob storage₁ jobId job')
          else (.ok jobId job.status, storage₁)
        else (.ok jobId job.status, storage₁)

/-! ### Status updates -/

/-- Build the `updatedJob` record: spread the old job, set the new status,
refresh `updated_at`, add `result` if provided (`result !== undefined`) and
`error` if truthy (the empty string is falsy and is not recorded). -/
def buildUpdatedJob (job : Job) (status : String) (result : Option Value)
    (error : Option String) (now : String) : Job :=
  let updated := { job with status := status, updated_at := now }
  let updated :=
    match result with
    | some r => { updated with result := some r }
    | none => updated
  match error with
  | some e => if e = "" then updated else { updated with error := some e }
  | none => updated

/-- The async `updateJobStatus` (the `job-handler` variant with on-chain
result submission).  `configPresent` is whether a `MasumiConfig` was
supplied; `submitOutcome` is what `submitResultToPaymentService` would
return if called — it is awaited *before* `storeJob`, so a thrown error
propagates with the storage untouched. -/
def updateJobStatusAsync (storage : JobStorage) (jobId : String) (status : String)
    (result : Option Value) (error : Option String) (configPresent : Bool)
    (submitOutcome : Except String Unit) (now : String) :
    Except String (Option Job) × JobStorage :=
  match getJob storage jobId with
  | none => (.ok none, storage)
  | some job =>
    let updatedJob := buildUpdatedJob job status result error now
    if status = "completed" ∧ result.isSome = true ∧ paymentHasBid job.payment = true ∧
        configPresent = true then
      match submitOutcome with
      | .error e => (.error e, storage)
      | .ok _ => (.ok (some updatedJob), storeJob storage jobId updatedJob)
    else (.ok (some updatedJob), storeJob storage jobId updatedJob)

/-- The synchronous `updateJobStatus` of `nodes/MasumiPaywall/job-handler.ts`
(no on-chain submission). -/
def updateJobStatusSync (storage : JobStorage) (jobId : String) (status : String)
    (result : Option Value) (error : Option String) (now : String) :
    Option Job × JobStorage :=
  match getJob storage jobId with
  | none => (none, storage)
  | some job =>
    let updatedJob := buildUpdatedJob job status result error now
    (some updatedJob, storeJob storage jobId updatedJob)

/-- `VALID_JOB_STATUSES` (`shared/constants.ts`). -/
def VALID_JOB_STATUSES : List String :=
  ["pending", "awaiting_payment", "awaiting_input", "running", "completed", "failed"]

/-- The `{json: ...}` responses of `handleUpdateStatus`. -/
inductive UpdateStatusResponse where
  | missingJobId
  | invalidStatus
  | jobNotFound (job_id : String)
  | ok (job : Job)

/-- `handleUpdateStatus` of `nodes/MasumiPaywall/job-handler.ts`: validates
`job_id` and that `status` is one of the known enum values, then calls the
synchronous `updateJobStatus`.  (It does not require a result for
`completed` or an error for `failed`.) -/
def handleUpdateStatus (storage : JobStorage) (jobId? : Option String)
    (status? : Option String) (result : Option Value) (error : Option String)
    (now : String) : UpdateStatusResponse × JobStorage :=
  match jobId? with
  | none => (.missingJobId, storage)
  | some jobId =>
    if jobId = "" then (.missingJobId, storage)
    else
      match status? with
      | none => (.invalidStatus, storage)
      | some status =>
        if status = "" ∨ VALID_JOB_STATUSES.contains status = false then
          (.invalidStatus, storage)
        else
          match updateJobStatusSync storage jobId status result error now with
          | (none, storage') => (.jobNotFound jobId, storage')
          | (some updatedJob, storage') => (.ok updatedJob, storage')

/-! ## Claim theorems for the protocol client and lifecycle -/

/-- **C3**: the purchase ("lock funds") request body carries
`blockchainIdentifier`, `payByTime`, `submitResultTime`, `unlockTime`,
`externalDisputeUnlockTime` and `inputHash` exactly as they appear in the
invoice-creation response: whenever a timestamp field is the string the
interface declares it to be, `String(...)` is the identity and the copied
value is byte-identical — nothing is recomputed or reformatted. -/
theorem createPurchase_verbatim (config : MasumiConfig) (pr : PaymentResponse)
    (idp s₁ s₂ s₃ s₄ : String)
    (h₁ : pr.data.payByTime = .pstr s₁) (h₂ : pr.data.submitResultTime = .pstr s₂)
    (h₃ : pr.data.unlockTime = .pstr s₃) (h₄ : pr.data.externalDisputeUnlockTime = .pstr s₄) :
    (createPurchaseBody config pr idp).blockchainIdentifier = pr.data.blockchainIdentifier ∧
    (createPurchaseBody config pr idp).payByTime = s₁ ∧
    (createPurchaseBody config pr idp).submitResultTime = s₂ ∧
    (createPurchaseBody config pr idp).unlockTime = s₃ ∧
    (createPurchaseBody config pr idp).externalDisputeUnlockTime = s₄ ∧
    (createPurchaseBody config pr idp).inputHash = pr.data.inputHash := by
  refine ⟨rfl, ?_, ?_, ?_, ?_, rfl⟩ <;>
    simp [createPurchaseBody, jsToString, h₁, h₂, h₃, h₄]

/-- Witness for C3 at a concrete invoice response. -/
theorem createPurchase_verbatim_witness :
    (createPurchaseBody ⟨"url", "key", "agent", "Preprod", "vkey"⟩
        ⟨"success", ⟨"bid", .pstr "1700000000001", .pstr "1700000000002",
          .pstr "1700000000003", .pstr "1700000000004", "hash"⟩⟩
        "70757263686173657230").blockchainIdentifier = "bid" ∧
    (createPurchaseBody ⟨"url", "key", "agent", "Preprod", "vkey"⟩
        ⟨"success", ⟨"bid", .pstr "1700000000001", .pstr "1700000000002",
          .pstr "1700000000003", .pstr "1700000000004", "hash"⟩⟩
        "70757263686173657230").payByTime = "1700000000001" ∧
    (createPurchaseBody ⟨"url", "key", "agent", "Preprod", "vkey"⟩
        ⟨"success", ⟨"bid", .pstr "1700000000001", .pstr "1700000000002",
          .pstr "1700000000003", .pstr "1700000000004", "hash"⟩⟩
        "70757263686173657230").submitResultTime = "1700000000002" ∧
    (createPurchaseBody ⟨"url", "key", "agent", "Preprod", "vkey"⟩
        ⟨"success", ⟨"bid", .pstr "1700000000001", .pstr "1700000000002",
          .pstr "1700000000003", .pstr "1700000000004", "hash"⟩⟩
        "70757263686173657230").unlockTime = "1700000000003" ∧
    (createPurchaseBody ⟨"url", "key", "agent", "Preprod", "vkey"⟩
        ⟨"success", ⟨"bid", .pstr "1700000000001", .pstr "1700000000002",
          .pstr "1700000000003", .pstr "1700000000004", "hash"⟩⟩
        "70757263686173657230").externalDisputeUnlockTime = "1700000000004" ∧
    (createPurchaseBody ⟨"url", "key", "agent", "Preprod", "vkey"⟩
        ⟨"success", ⟨"bid", .pstr "1700000000001", .pstr "1700000000002",
          .pstr "1700000000003", .pstr "1700000000004", "hash"⟩⟩
        "70757263686173657230").inputHash = "hash" :=
  createPurchase_verbatim ⟨"url", "key", "agent", "Preprod", "vkey"⟩
    ⟨"success", ⟨"bid", .pstr "1700000000001", .pstr "1700000000002",
      .pstr "1700000000003", .pstr "1700000000004", "hash"⟩⟩
    "70757263686173657230" "1700000000001" "1700000000002" "1700000000003"
    "1700000000004" rfl rfl rfl rfl

/-- **C2**: when a job is updated to `completed` with a payment-service
config present and the on-chain result submission fails, `updateJobStatus`
propagates the submission error and leaves the stored job record completely
unchanged — in particular the status is not advanced to `completed`.
(Submission is attempted exactly when a result is supplied and the job has
a non-empty `blockchainIdentifier`.) -/
theorem updateStatus_submitFailure (storage : JobStorage) (jobId : String) (job : Job)
    (r : Value) (err : Option String) (e : String) (now : String)
    (hjob : getJob storage jobId = some job)
    (hbid : paymentHasBid job.payment = true) :
    updateJobStatusAsync storage jobId "completed" (some r) err true (.error e) now =
      (.error e, storage) ∧
    (updateJobStatusAsync storage jobId "completed" (some r) err true
      (.error e) now).2.jobs jobId = some job := by
  have hstep : updateJobStatusAsync storage jobId "completed" (some r) err true
      (.error e) now = (.error e, storage) := by
    rw [updateJobStatusAsync, hjob]
    simp [hbid]
  exact ⟨hstep, by rw [hstep]; exact hjob⟩

/-- Witness for C2 at a concrete store: the error propagates and the job
stays `running`. -/
theorem updateStatus_submitFailure_witness :
    updateJobStatusAsync
        ⟨fun k => if k = "6a6f623031" then
          some ⟨"6a6f623031", "70757263", .vobj [], "running",
            some ⟨"bid", .pstr "1", .pstr "2", .pstr "3", .pstr "4", "ih"⟩,
            none, none, "T0", "T0"⟩ else none, none⟩
        "6a6f623031" "completed" (some (.vstr "done")) none true
        (.error "Failed to submit result onchain: 500 Internal Server Error") "T1" =
      (.error "Failed to submit result onchain: 500 Internal Server Error",
        ⟨fun k => if k = "6a6f623031" then
          some ⟨"6a6f623031", "70757263", .vobj [], "running",
            some ⟨"bid", .pstr "1", .pstr "2", .pstr "3", .pstr "4", "ih"⟩,
            none, none, "T0", "T0"⟩ else none, none⟩) ∧
    (updateJobStatusAsync
        ⟨fun k => if k = "6a6f623031" then
          some ⟨"6a6f623031", "70757263", .vobj [], "running",
            some ⟨"bid", .pstr "1", .pstr "2", .pstr "3", .pstr "4", "ih"⟩,
            none, none, "T0", "T0"⟩ else none, none⟩
        "6a6f623031" "completed" (some (.vstr "done")) none true
        (.error "Failed to submit result onchain: 500 Internal Server Error")
        "T1").2.jobs "6a6f623031" =
      some ⟨"6a6f623031", "70757263", .vobj [], "running",
        some ⟨"bid", .pstr "1", .pstr "2", .pstr "3", .pstr "4", "ih"⟩,
        none, none, "T0", "T0"⟩ :=
  updateStatus_submitFailure _ "6a6f623031"
    ⟨"6a6f623031", "70757263", .vobj [], "running",
      some ⟨"bid", .pstr "1", .pstr "2", .pstr "3", .pstr "4", "ih"⟩,
      none, none, "T0", "T0"⟩
    (.vstr "done") none "Failed to submit result onchain: 500 Internal Server Error" "T1"
    (by simp [getJob]) rfl

/-- **C6** (amended): for a stored job whose status is not
`awaiting_payment`, both status-check operations are idempotent no-ops: the
job record is returned/reported unchanged and the job store is not
modified (`handleStatusResponse` only refreshes the `last_job_id` access
tracker).  For a job in `awaiting_payment` with a payment
`blockchainIdentifier`, when the poll observes `FundsLocked`,
`handleStatusResponse` persists the job with status `running` and a
refreshed `updated_at`, while `handleCheckStatus` persists it with status
`'processing'` (a value outside the declared `JobStatus` union), not
`running`. -/
theorem pollAdvance_transitions (storage : JobStorage) (jobId : String) (job : Job)
    (pollResult : PaymentStatusResult) (now : String)
    (hid : jobId ≠ "") (hjob : getJob storage jobId = some job) :
    (job.status ≠ "awaiting_payment" →
      handleCheckStatus storage (some jobId) pollResult now = (.job job, storage) ∧
      handleStatusResponse storage (some jobId) pollResult now =
        (.ok jobId job.status, { storage with last_job_id := some jobId })) ∧
    (job.status = "awaiting_payment" → paymentHasBid job.payment = true →
      pollSawFundsLocked pollResult = true →
      (handleStatusResponse storage (some jobId) pollResult now).2.jobs jobId =
        some { job with status := "running", updated_at := now } ∧
      (handleCheckStatus storage (some jobId) pollResult now).2.jobs jobId =
        some { job with status := "processing", updated_at := now }) := by
  constructor
  · intro hstat
    constructor
    · rw [handleCheckStatus]
      simp [hid, hjob, hstat]
    · rw [handleStatusResponse]
      simp [hid, hjob, hstat]
  · intro hstat hbid hfl
    constructor
    · rw [handleStatusResponse]
      simp [hid, hjob, hstat, hbid, hfl, storeJob]
    · rw [handleCheckStatus]
      simp [hid, hjob, hstat, hbid, hfl, storeJob]

/-- Counterexample to C6 as stated: on a job awaiting payment whose poll
observes `FundsLocked`, `handleCheckStatus` stores status `'processing'`,
not `'running'`. -/
theorem pollAdvance_counterexample :
    ((handleCheckStatus
        ⟨fun k => if k = "6a6f623032" then
          some ⟨"6a6f623032", "70757263", .vobj [], "awaiting_payment",
            some ⟨"bid", .pstr "1", .pstr "2", .pstr "3", .pstr "4", "ih"⟩,
            none, none, "T0", "T0"⟩ else none, none⟩
        (some "6a6f623032")
        ⟨true, "FundsLocked", some ⟨"bid", some "FundsLocked", "ih"⟩, "payment confirmed"⟩
        "T1").2.jobs "6a6f623032").map Job.status = some "processing" ∧
    ((handleCheckStatus
        ⟨fun k => if k = "6a6f623032" then
          some ⟨"6a6f623032", "70757263", .vobj [], "awaiting_payment",
            some ⟨"bid", .pstr "1", .pstr "2", .pstr "3", .pstr "4", "ih"⟩,
            none, none, "T0", "T0"⟩ else none, none⟩
        (some "6a6f623032")
        ⟨true, "FundsLocked", some ⟨"bid", some "FundsLocked", "ih"⟩, "payment confirmed"⟩
        "T1").2.jobs "6a6f623032").map Job.status ≠ some "running" := by
  constructor
  · rfl
  · intro h
    rw [show ((handleCheckStatus
        ⟨fun k => if k = "6a6f623032" then
          some ⟨"6a6f623032", "70757263", .vobj [], "awaiting_payment",
            some ⟨"bid", .pstr "1", .pstr "2", .pstr "3", .pstr "4", "ih"⟩,
            none, none, "T0", "T0"⟩ else none, none⟩
        (some "6a6f623032")
        ⟨true, "FundsLocked", some ⟨"bid", some "FundsLocked", "ih"⟩, "payment confirmed"⟩
        "T1").2.jobs "6a6f623032").map Job.status = some "processing" from rfl] at h
    exact absurd h (by decide)

/-- Witness for C6 (amended) at a concrete store and poll result. -/
theorem pollAdvance_transitions_witness :
    ((⟨"6a6f623032", "70757263", .vobj [], "awaiting_payment",
        some ⟨"bid", .pstr "1", .pstr "2", .pstr "3", .pstr "4", "ih"⟩,
        none, none, "T0", "T0"⟩ : Job).status ≠ "awaiting_payment" →
      handleCheckStatus
          ⟨fun k => if k = "6a6f623032" then
            some ⟨"6a6f623032", "70757263", .vobj [], "awaiting_payment",
              some ⟨"bid", .pstr "1", .pstr "2", .pstr "3", .pstr "4", "ih"⟩,
              none, none, "T0", "T0"⟩ else none, none⟩
          (some "6a6f623032")
          ⟨true, "FundsLocked", some ⟨"bid", some "FundsLocked", "ih"⟩, "payment confirmed"⟩
          "T1" =
        (.job ⟨"6a6f623032", "70757263", .vobj [], "awaiting_payment",
          some ⟨"bid", .pstr "1", .pstr "2", .pstr "3", .pstr "4", "ih"⟩,
          none, none, "T0", "T0"⟩,
          ⟨fun k => if k = "6a6f623032" then
            some ⟨"6a6f623032", "70757263", .vobj [], "awaiting_payment",
              some ⟨"bid", .pstr "1", .pstr "2", .pstr "3", .pstr "4", "ih"⟩,
              none, none, "T0", "T0"⟩ else none, none⟩) ∧
      handleStatusResponse
          ⟨fun k => if k = "6a6f623032" then
            some ⟨"6a6f623032", "70757263", .vobj [], "awaiting_payment",
              some ⟨"bid", .pstr "1", .pstr "2", .pstr "3", .pstr "4", "ih"⟩,
              none, none, "T0", "T0"⟩ else none, none⟩
          (some "6a6f623032")
          ⟨true, "FundsLocked", some ⟨"bid", some "FundsLocked", "ih"⟩, "payment confirmed"⟩
          "T1" =
        (.ok "6a6f623032" "awaiting_payment",
          { (⟨fun k => if k = "6a6f623032" then
              some ⟨"6a6f623032", "70757263", .vobj [], "awaiting_payment",
                some ⟨"bid", .pstr "1", .pstr "2", .pstr "3", .pstr "4", "ih"⟩,
                none, none, "T0", "T0"⟩ else none, none⟩ : JobStorage) with
            last_job_id := some "6a6f623032" })) ∧
    ((⟨"6a6f623032", "70757263", .vobj [], "awaiting_payment",
        some ⟨"bid", .pstr "1", .pstr "2", .pstr "3", .pstr "4", "ih"⟩,
        none, none, "T0", "T0"⟩ : Job).status = "awaiting_payment" →
      paymentHasBid (⟨"6a6f623032", "70757263", .vobj [], "awaiting_payment",
        some ⟨"bid", .pstr "1", .pstr "2", .pstr "3", .pstr "4", "ih"⟩,
        none, none, "T0", "T0"⟩ : Job).payment = true →
      pollSawFundsLocked
        ⟨true, "FundsLocked", some ⟨"bid", some "FundsLocked", "ih"⟩, "payment confirmed"⟩ = true →
      (handleStatusResponse
          ⟨fun k => if k = "6a6f623032" then
            some ⟨"6a6f623032", "70757263", .vobj [], "awaiting_payment",
              some ⟨"bid", .pstr "1", .pstr "2", .pstr "3", .pstr "4", "ih"⟩,
              none, none, "T0", "T0"⟩ else none, none⟩
          (some "6a6f623032")
          ⟨true, "FundsLocked", some ⟨"bid", some "FundsLocked", "ih"⟩, "payment confirmed"⟩
          "T1").2.jobs "6a6f623032" =
        some { (⟨"6a6f623032", "70757263", .vobj [], "awaiting_payment",
          some ⟨"bid", .pstr "1", .pstr "2", .pstr "3", .pstr "4", "ih"⟩,
          none, none, "T0", "T0"⟩ : Job) with status := "running", updated_at := "T1" } ∧
      (handleCheckStatus
          ⟨fun k => if k = "6a6f623032" then
            some ⟨"6a6f623032", "70757263", .vobj [], "awaiting_payment",
              some ⟨"bid", .pstr "1", .pstr "2", .pstr "3", .pstr "4", "ih"⟩,
              none, none, "T0", "T0"⟩ else none, none⟩
          (some "6a6f623032")
          ⟨true, "FundsLocked", some ⟨"bid", some "FundsLocked", "ih"⟩, "payment confirmed"⟩
          "T1").2.jobs "6a6f623032" =
        some { (⟨"6a6f623032", "70757263", .vobj [], "awaiting_payment",
          some ⟨"bid", .pstr "1", .pstr "2", .pstr "3", .pstr "4", "ih"⟩,
          none, none, "T0", "T0"⟩ : Job) with status := "processing", updated_at := "T1" }) :=
  pollAdvance_transitions
    ⟨fun k => if k = "6a6f623032" then
      some ⟨"6a6f623032", "70757263", .vobj [], "awaiting_payment",
        some ⟨"bid", .pstr "1", .pstr "2", .pstr "3", .pstr "4", "ih"⟩,
        none, none, "T0", "T0"⟩ else none, none⟩
    "6a6f623032"
    ⟨"6a6f623032", "70757263", .vobj [], "awaiting_payment",
      some ⟨"bid", .pstr "1", .pstr "2", .pstr "3", .pstr "4", "ih"⟩,
      none, none, "T0", "T0"⟩
    ⟨true, "FundsLocked", some ⟨"bid", some "FundsLocked", "ih"⟩, "payment confirmed"⟩
    "T1" (by decide) rfl

/-- **C7**: `handleStartJob` schedules the fire-and-forget background
polling trigger exactly once on every path; its output never depends on the
webhook outcome (it is never awaited); when invoice creation fails the
returned error response still carries the generated `job_id` and the
purchaser identifier, no job record is written, and the single trigger
carries no job payload; when creation succeeds the single trigger carries
exactly the stored job. -/
theorem startJob_failure_contract (credentials : MasumiConfig) (storage : JobStorage)
    (jobId idp : String) (input : Value) (now : String)
    (po : Except String PaymentResponse) (w w' : Except String Unit) :
    (handleStartJob credentials storage jobId idp input now po w).webhookTriggers.length = 1 ∧
    handleStartJob credentials storage jobId idp input now po w =
      handleStartJob credentials storage jobId idp input now po w' ∧
    (∀ e, po = .error e →
      (handleStartJob credentials storage jobId idp input now po
        w).result.responseData.error = some "job_creation_failed" ∧
      (handleStartJob credentials storage jobId idp input now
        po w).result.responseData.job_id = some jobId ∧
      (handleStartJob credentials storage jobId idp input now
        po w).result.responseData.identifierFromPurchaser =
          some (toPaymentIdentifier idp) ∧
      (handleStartJob credentials storage jobId idp input now po w).storage = storage ∧
      (handleStartJob credentials storage jobId idp input now po w).webhookTriggers =
        [⟨jobId, none⟩]) ∧
    (∀ pr, po = .ok pr →
      ∃ j, (handleStartJob credentials storage jobId idp input now po w).webhookTriggers =
          [⟨jobId, some j⟩] ∧
        (handleStartJob credentials storage jobId idp input now po w).storage.jobs jobId =
          some j) := by
  refine ⟨?_, ?_, ?_, ?_⟩
  · cases po <;> rfl
  · cases po <;> rfl
  · intro e he
    subst he
    exact ⟨rfl, rfl, rfl, rfl, rfl⟩
  · intro pr hpr
    subst hpr
    refine ⟨_, rfl, ?_⟩
    show (if jobId = jobId then _ else _) = _
    rw [if_pos rfl]

/-- Witness for C7: a failed invoice creation at concrete inputs. -/
theorem startJob_failure_contract_witness :
    (handleStartJob ⟨"url", "key", "agent", "Preprod", "vkey"⟩ ⟨fun _ => none, none⟩
      "6a6f623034" "user1" (.vobj []) "T0" (.error "upstream 500")
      (.ok ())).webhookTriggers.length = 1 ∧
    handleStartJob ⟨"url", "key", "agent", "Preprod", "vkey"⟩ ⟨fun _ => none, none⟩
        "6a6f623034" "user1" (.vobj []) "T0" (.error "upstream 500") (.ok ()) =
      handleStartJob ⟨"url", "key", "agent", "Preprod", "vkey"⟩ ⟨fun _ => none, none⟩
        "6a6f623034" "user1" (.vobj []) "T0" (.error "upstream 500")
        (.error "webhook down") ∧
    (handleStartJob ⟨"url", "key", "agent", "Preprod", "vkey"⟩ ⟨fun _ => none, none⟩
      "6a6f623034" "user1" (.vobj []) "T0" (.error "upstream 500")
      (.ok ())).result.responseData.error = some "job_creation_failed" ∧
    (handleStartJob ⟨"url", "key", "agent", "Preprod", "vkey"⟩ ⟨fun _ => none, none⟩
      "6a6f623034" "user1" (.vobj []) "T0" (.error "upstream 500")
      (.ok ())).result.responseData.job_id = some "6a6f623034" ∧
    (handleStartJob ⟨"url", "key", "agent", "Preprod", "vkey"⟩ ⟨fun _ => none, none⟩
      "6a6f623034" "user1" (.vobj []) "T0" (.error "upstream 500")
      (.ok ())).result.responseData.identifierFromPurchaser =
        some (toPaymentIdentifier "user1") ∧
    (handleStartJob ⟨"url", "key", "agent", "Preprod", "vkey"⟩ ⟨fun _ => none, none⟩
      "6a6f623034" "user1" (.vobj []) "T0" (.error "upstream 500")
      (.ok ())).storage = ⟨fun _ => none, none⟩ ∧
    (handleStartJob ⟨"url", "key", "agent", "Preprod", "vkey"⟩ ⟨fun _ => none, none⟩
      "6a6f623034" "user1" (.vobj []) "T0" (.error "upstream 500")
      (.ok ())).webhookTriggers = [⟨"6a6f623034", none⟩] := by
  have h := startJob_failure_contract ⟨"url", "key", "agent", "Preprod", "vkey"⟩
    ⟨fun _ => none, none⟩ "6a6f623034" "user1" (.vobj []) "T0" (.error "upstream 500")
    (.ok ()) (.error "webhook down")
  obtain ⟨h1, h2, h3, -⟩ := h
  obtain ⟨h3a, h3b, h3c, h3d, h3e⟩ := h3 "upstream 500" rfl
  exact ⟨h1, h2, h3a, h3b, h3c, h3d, h3e⟩

/-- **C10**: the purchaser identifier that `handleStartJob` sends to the
payment service and stores in the job's `identifier_from_purchaser` field
is the lowercase-hex encoding of the caller identifier's UTF-8 bytes,
right-padded with `'0'` to at least 14 characters and truncated to 26; its
length is always between 14 and 26 and it consists only of the characters
`0-9a-f`. -/
theorem purchaserIdentifier_hex (s : String) :
    14 ≤ (toPaymentIdentifier s).length ∧
    (toPaymentIdentifier s).length ≤ 26 ∧
    (∀ c ∈ (toPaymentIdentifier s).data, c ∈ hexAlphabet) ∧
    (∀ credentials storage jobId input now pr w,
      ((handleStartJob credentials storage jobId s input now (.ok pr)
          w).storage.jobs jobId).map Job.identifier_from_purchaser =
        some (toPaymentIdentifier s) ∧
      (handleStartJob credentials storage jobId s input now (.ok pr)
        w).sentIdentifierFromPurchaser = toPaymentIdentifier s) := by
  have hlen : 14 ≤ (paymentIdChars s).length ∧ (paymentIdChars s).length ≤ 26 := by
    simp only [paymentIdChars]
    generalize bytesToHex (utf8Encode s) = hx
    by_cases h1 : hx.length < 14
    · rw [if_pos h1]
      by_cases h2 : 26 < (hx ++ List.replicate (14 - hx.length) '0').length
      · rw [if_pos h2, List.length_take]
        simp only [List.length_append, List.length_replicate] at h2 ⊢
        omega
      · rw [if_neg h2]
        simp only [List.length_append, List.length_replicate] at h2 ⊢
        omega
    · rw [if_neg h1]
      by_cases h2 : 26 < hx.length
      · rw [if_pos h2, List.length_take]
        omega
      · rw [if_neg h2]
        omega
  have hhex : ∀ c ∈ paymentIdChars s, c ∈ hexAlphabet := by
    intro c hc
    have hbase : ∀ x ∈ (bytesToHex (utf8Encode s)) ++
        List.replicate (14 - (bytesToHex (utf8Encode s)).length) '0', x ∈ hexAlphabet := by
      intro x hx
      rcases List.mem_append.mp hx with hx | hx
      · exact bytesToHex_mem hx
      · rw [List.eq_of_mem_replicate hx]
        decide
    simp only [paymentIdChars] at hc
    by_cases h1 : (bytesToHex (utf8Encode s)).length < 14
    · rw [if_pos h1] at hc
      by_cases h2 : 26 < ((bytesToHex (utf8Encode s)) ++
          List.replicate (14 - (bytesToHex (utf8Encode s)).length) '0').length
      · rw [if_pos h2] at hc
        exact hbase c (List.take_subset _ _ hc)
      · rw [if_neg h2] at hc
        exact hbase c hc
    · rw [if_neg h1] at hc
      by_cases h2 : 26 < (bytesToHex (utf8Encode s)).length
      · rw [if_pos h2] at hc
        exact bytesToHex_mem (List.take_subset _ _ hc)
      · rw [if_neg h2] at hc
        exact bytesToHex_mem hc
  refine ⟨hlen.1, hlen.2, hhex, ?_⟩
  intro credentials storage jobId input now pr w
  constructor
  · show (if jobId = jobId then _ else _ : Option Job).map _ = _
    rw [if_pos rfl]
    rfl
  · rfl

/-- Witness for C10 at a concrete caller identifier: `"user1"` encodes to
`"7573657231"` (10 hex chars), padded to `"75736572310000"`. -/
theorem purchaserIdentifier_hex_witness :
    14 ≤ (toPaymentIdentifier "user1").length ∧
    (toPaymentIdentifier "user1").length ≤ 26 ∧
    (∀ c ∈ (toPaymentIdentifier "user1").data, c ∈ hexAlphabet) ∧
    (∀ credentials storage jobId input now pr w,
      ((handleStartJob credentials storage jobId "user1" input now (.ok pr)
          w).storage.jobs jobId).map Job.identifier_from_purchaser =
        some (toPaymentIdentifier "user1") ∧
      (handleStartJob credentials storage jobId "user1" input now (.ok pr)
        w).sentIdentifierFromPurchaser = toPaymentIdentifier "user1") :=
  purchaserIdentifier_hex "user1"

/-! ### The completed/failed payload invariant (claim C8) -/

/-- The spec's store invariant: a completed job has a result, a failed job
has an error. -/
def JobInvariant (storage : JobStorage) : Prop :=
  ∀ id j, storage.jobs id = some j →
    (j.status = "completed" → j.result.isSome = true) ∧
    (j.status = "failed" → j.error.isSome = true)

theorem buildUpdatedJob_status (job : Job) (status : String) (result : Option Value)
    (error : Option String) (now : String) :
    (buildUpdatedJob job status result error now).status = status := by
  cases result <;> cases error <;>
    first
      | rfl
      | (rw [buildUpdatedJob.eq_def]
         repeat' split
         all_goals simp_all)

theorem buildUpdatedJob_result_of_some (job : Job) (status : String) (r : Value)
    (error : Option String) (now : String) :
    (buildUpdatedJob job status (some r) error now).result = some r := by
  cases error <;>
    first
      | rfl
      | (rw [buildUpdatedJob.eq_def]
         repeat' split
         all_goals simp_all)

theorem buildUpdatedJob_error_of_some (job : Job) (status : String) (result : Option Value)
    (e : String) (he : e ≠ "") (now : String) :
    (buildUpdatedJob job status result (some e) now).error = some e := by
  cases result <;>
    (rw [buildUpdatedJob.eq_def]
     repeat' split
     all_goals simp_all)

theorem jobInvariant_storeJob {storage : JobStorage} (h : JobInvariant storage)
    {jobId : String} {job : Job}
    (hc : job.status = "completed" → job.result.isSome = true)
    (hf : job.status = "failed" → job.error.isSome = true) :
    JobInvariant (storeJob storage jobId job) := by
  intro id j hid
  by_cases hk : id = jobId
  · subst hk
    rw [storeJob] at hid
    simp only [if_pos rfl] at hid
    injection hid with hid
    subst hid
    exact ⟨hc, hf⟩
  · rw [storeJob] at hid
    simp only [if_neg hk] at hid
    exact h id j hid

theorem jobInvariant_lastJobId {storage : JobStorage} (h : JobInvariant storage)
    (x : Option String) : JobInvariant { storage with last_job_id := x } :=
  fun id j hid => h id j hid

/-- **C8** (amended): job creation and poll advancement preserve the
invariant unconditionally; a status update preserves it provided a result
is supplied when the new status is `completed` and a non-empty error is
supplied when it is `failed` — the code itself does not enforce these
side conditions. -/
theorem jobInvariant_preservation :
    (∀ credentials storage jobId idp input now po w, JobInvariant storage →
      JobInvariant (handleStartJob credentials storage jobId idp input now po w).storage) ∧
    (∀ storage jobId? pollResult now, JobInvariant storage →
      JobInvariant (handleCheckStatus storage jobId? pollResult now).2 ∧
      JobInvariant (handleStatusResponse storage jobId? pollResult now).2) ∧
    (∀ storage jobId status result err now, JobInvariant storage →
      (status = "completed" → result.isSome = true) →
      (status = "failed" → ∃ e, err = some e ∧ e ≠ "") →
      JobInvariant (updateJobStatusSync storage jobId status result err now).2) := by
  refine ⟨?_, ?_, ?_⟩
  · intro credentials storage jobId idp input now po w h
    cases po with
    | error e => exact h
    | ok pr =>
      apply jobInvariant_lastJobId
      exact jobInvariant_storeJob h
        (fun hst => absurd (show ("awaiting_payment" : String) = "completed" from hst)
          (by decide))
        (fun hst => absurd (show ("awaiting_payment" : String) = "failed" from hst)
          (by decide))
  · intro storage jobId? pollResult now h
    constructor
    · rw [handleCheckStatus.eq_def]
      repeat' split
      all_goals
        first
          | exact h
          | exact jobInvariant_storeJob h
              (fun hst => absurd (show ("processing" : String) = "completed" from hst)
                (by decide))
              (fun hst => absurd (show ("processing" : String) = "failed" from hst)
                (by decide))
    · rw [handleStatusResponse.eq_def]
      repeat' split
      all_goals
        first
          | exact h
          | exact jobInvariant_lastJobId h _
          | exact jobInvariant_storeJob (jobInvariant_lastJobId h _)
              (fun hst => absurd (show ("running" : String) = "completed" from hst)
                (by decide))
              (fun hst => absurd (show ("running" : String) = "failed" from hst)
                (by decide))
  · intro storage jobId status result err now h hcres hferr
    rw [updateJobStatusSync.eq_def]
    cases hjob : getJob storage jobId with
    | none => exact h
    | some job =>
      apply jobInvariant_storeJob h
      · intro hst
        rw [buildUpdatedJob_status] at hst
        subst hst
        obtain ⟨r, hr⟩ := Option.isSome_iff_exists.mp (hcres rfl)
        subst hr
        rw [buildUpdatedJob_result_of_some]
        rfl
      · intro hst
        rw [buildUpdatedJob_status] at hst
        subst hst
        obtain ⟨e, he, hne⟩ := hferr rfl
        subst he
        rw [buildUpdatedJob_error_of_some _ _ _ _ hne]
        rfl

/-- Witness for C8 (amended): the preservation statements applied to an
empty store at concrete inputs. -/
theorem jobInvariant_preservation_witness :
    JobInvariant (handleStartJob ⟨"url", "key", "agent", "Preprod", "vkey"⟩
      ⟨fun _ => none, none⟩ "6a6f623035" "user1" (.vobj []) "T0"
      (.ok ⟨"success", ⟨"bid", .pstr "1", .pstr "2", .pstr "3", .pstr "4", "ih"⟩⟩)
      (.ok ())).storage ∧
    JobInvariant (updateJobStatusSync ⟨fun _ => none, none⟩ "6a6f623035" "completed"
      (some (.vstr "done")) none "T1").2 := by
  have h := jobInvariant_preservation
  have hempty : JobInvariant ⟨fun _ => none, none⟩ := by
    intro id j hid
    exact absurd hid (by simp)
  refine ⟨h.1 ⟨"url", "key", "agent", "Preprod", "vkey"⟩ ⟨fun _ => none, none⟩
    "6a6f623035" "user1" (.vobj []) "T0"
    (.ok ⟨"success", ⟨"bid", .pstr "1", .pstr "2", .pstr "3", .pstr "4", "ih"⟩⟩)
    (.ok ()) hempty, ?_⟩
  exact h.2.2 ⟨fun _ => none, none⟩ "6a6f623035" "completed" (some (.vstr "done")) none "T1"
    hempty (fun _ => rfl) (fun hf => absurd hf (by decide))

/-- Counterexample to C8 as stated: from a store satisfying the invariant
(one `running` job with no result), the validated status-update entry point
`handleUpdateStatus` accepts `completed` with no result and stores a
completed job whose `result` is `null` — the write does not preserve the
invariant. -/
theorem jobInvariant_counterexample :
    JobInvariant ⟨fun k => if k = "6a6f623036" then
      some ⟨"6a6f623036", "70757263", .vobj [], "running",
        some ⟨"bid", .pstr "1", .pstr "2", .pstr "3", .pstr "4", "ih"⟩,
        none, none, "T0", "T0"⟩ else none, none⟩ ∧
    ¬ JobInvariant (handleUpdateStatus
      ⟨fun k => if k = "6a6f623036" then
        some ⟨"6a6f623036", "70757263", .vobj [], "running",
          some ⟨"bid", .pstr "1", .pstr "2", .pstr "3", .pstr "4", "ih"⟩,
          none, none, "T0", "T0"⟩ else none, none⟩
      (some "6a6f623036") (some "completed") none none "T1").2 := by
  constructor
  · intro id j hid
    by_cases hk : id = "6a6f623036"
    · subst hk
      have heq : some (⟨"6a6f623036", "70757263", .vobj [], "running",
          some ⟨"bid", .pstr "1", .pstr "2", .pstr "3", .pstr "4", "ih"⟩,
          none, none, "T0", "T0"⟩ : Job) = some j := hid
      injection heq with heq
      subst heq
      exact ⟨fun hst => absurd hst (by decide), fun hst => absurd hst (by decide)⟩
    · have heq : (none : Option Job) = some j := by
        rw [← hid]
        show _ = (if id = "6a6f623036" then _ else _)
        rw [if_neg hk]
      exact Option.noConfusion heq
  · intro h
    have hst : ((handleUpdateStatus
        ⟨fun k => if k = "6a6f623036" then
          some ⟨"6a6f623036", "70757263", .vobj [], "running",
            some ⟨"bid", .pstr "1", .pstr "2", .pstr "3", .pstr "4", "ih"⟩,
            none, none, "T0", "T0"⟩ else none, none⟩
        (some "6a6f623036") (some "completed") none none "T1").2.jobs "6a6f623036") =
        some ⟨"6a6f623036", "70757263", .vobj [], "completed",
          some ⟨"bid", .pstr "1", .pstr "2", .pstr "3", .pstr "4", "ih"⟩,
          none, none, "T0", "T1"⟩ := rfl
    have := (h "6a6f623036" _ hst).1 rfl
    exact absurd this (by decide)

end Masumi
